import Mathlib

/-!
Verification development for the resistor-color worker
(`src/index.ts` of `resistorcolor-worker`).

The embedding is split in two layers.

The first layer models the exact-arithmetic part of the worker: the
reference color catalog `RESISTOR_COLORS`, the sequence-to-value decoder
`calculateResistorValue` (with its helpers `formatResistance` and the
JavaScript `parseInt` / number-to-string conventions), the value-to-sequence
encoder `resistanceToColors`, and the dominant-color helper
`findDominantColor`.  JavaScript numbers are modelled by exact rationals;
`Math.floor(Math.log10 q)` and `Math.round(Math.log10 q)` are modelled by
the exact integer functions `floorLog10` and `roundLog10`.

The second layer models the perceptual pipeline over the reals:
`rgbToLab`, `colorDistance`, the biased classifier `findClosestColor` and
the band segmentation engine `extractBands`.
-/

/-- `ResistorColor` record from the source: a named reference color with
optional digit value, decimal multiplier and tolerance percentage. -/
structure ResistorColor where
  name : String
  r : ℚ
  g : ℚ
  b : ℚ
  value : Option ℤ := none
  multiplier : Option ℚ := none
  tolerance : Option ℚ := none
deriving Repr, DecidableEq, Inhabited

/-- `CustomColor` record from the source: a user-taught color. -/
structure CustomColor where
  name : String
  r : ℚ
  g : ℚ
  b : ℚ
deriving Repr, DecidableEq

/-- The `RESISTOR_COLORS` catalog, transcribed entry for entry from the
source (same order, same RGB values, same optional fields). -/
def RESISTOR_COLORS : List ResistorColor := [
  { name := "Black", r := 0, g := 0, b := 0, value := some 0, multiplier := some 1 },
  { name := "Brown", r := 165, g := 42, b := 42, value := some 1, multiplier := some 10, tolerance := some 1 },
  { name := "Red", r := 255, g := 0, b := 0, value := some 2, multiplier := some 100, tolerance := some 2 },
  { name := "Orange", r := 255, g := 165, b := 0, value := some 3, multiplier := some 1000 },
  { name := "Yellow", r := 255, g := 255, b := 0, value := some 4, multiplier := some 10000 },
  { name := "Green", r := 0, g := 128, b := 0, value := some 5, multiplier := some 100000, tolerance := some 0.5 },
  { name := "Blue", r := 0, g := 0, b := 255, value := some 6, multiplier := some 1000000, tolerance := some 0.25 },
  { name := "Violet", r := 238, g := 130, b := 238, value := some 7, multiplier := some 10000000, tolerance := some 0.1 },
  { name := "Gray", r := 128, g := 128, b := 128, value := some 8, multiplier := some 100000000, tolerance := some 0.05 },
  { name := "White", r := 255, g := 255, b := 255, value := some 9, multiplier := some 1000000000 },
  { name := "Gold", r := 255, g := 215, b := 0, multiplier := some 0.1, tolerance := some 5 },
  { name := "Gold_Light", r := 255, g := 220, b := 100, value := some (-1), tolerance := some 5 },
  { name := "Gold_Metallic", r := 212, g := 175, b := 55, value := some (-1), tolerance := some 5 },
  { name := "Gold_Dark", r := 184, g := 134, b := 11, value := some (-1), tolerance := some 5 },
  { name := "Gold_Ochre", r := 204, g := 119, b := 34, value := some (-1), tolerance := some 5 },
  { name := "Silver", r := 192, g := 192, b := 192, multiplier := some 0.01, tolerance := some 10 },
  { name := "Beige (Body)", r := 245, g := 245, b := 220 },
  { name := "Tan (Body)", r := 210, g := 180, b := 140 },
  { name := "Sandy (Body)", r := 244, g := 164, b := 96 },
  { name := "Cream (Body)", r := 255, g := 253, b := 208 },
  { name := "Khaki (Body)", r := 195, g := 176, b := 145 },
  { name := "Light Blue (Body)", r := 173, g := 216, b := 230 },
  { name := "Violet_Dark", r := 100, g := 50, b := 150, value := some 7, multiplier := some 10000000, tolerance := some 0.1 }]

/-- `RESISTOR_COLORS.find(c => c.name === bandName)` from the source. -/
def lookupColor (n : String) : Option ResistorColor :=
  RESISTOR_COLORS.find? (fun c => c.name = n)

/-- Decimal string of the integer part and a digit list, as JavaScript would
print a nonnegative integer; `toString` on `ℤ` matches the JavaScript
rendering of integral numbers. -/
def intStr (i : ℤ) : String := toString i

/-- JavaScript prints a number with a terminating decimal expansion (the
only case this code can produce: all catalog multipliers have denominator
1, 10 or 100) without trailing zeros.  `ratDecimalStringNonneg q` is that
rendering for `q ≥ 0`; the final catch-all branch is unreachable for the
values the worker produces. -/
def ratDecimalStringNonneg (q : ℚ) : String :=
  if (⌊q⌋ : ℚ) = q then intStr ⌊q⌋
  else if (⌊10 * q⌋ : ℚ) = 10 * q then
    intStr ⌊q⌋ ++ "." ++ intStr (⌊10 * q⌋ - 10 * ⌊q⌋)
  else if (⌊100 * q⌋ : ℚ) = 100 * q then
    intStr ⌊q⌋ ++ "." ++
      (if ⌊100 * q⌋ - 100 * ⌊q⌋ < 10 then "0" ++ intStr (⌊100 * q⌋ - 100 * ⌊q⌋)
       else intStr (⌊100 * q⌋ - 100 * ⌊q⌋))
  else intStr q.num ++ "/" ++ intStr (q.den : ℤ)

/-- JavaScript number-to-string conversion on the rationals the worker can
produce (sign handled here, magnitude by `ratDecimalStringNonneg`). -/
def ratDecimalString (q : ℚ) : String :=
  if q < 0 then "-" ++ ratDecimalStringNonneg (-q) else ratDecimalStringNonneg q

/-- `(q).toFixed(1).replace(/\.0$/, '')` for `q ≥ 0`: round to one decimal
place (JavaScript `toFixed` rounds to the nearest multiple of `0.1`,
half away from zero, which on nonnegative input is `round`), then drop a
trailing `.0`. -/
def jsToFixed1StripNonneg (q : ℚ) : String :=
  let n := round (10 * q)
  if n % 10 = 0 then intStr (n / 10) else intStr (n / 10) ++ "." ++ intStr (n % 10)

/-- Signed version of `jsToFixed1StripNonneg`. -/
def jsToFixed1Strip (q : ℚ) : String :=
  if q < 0 then "-" ++ jsToFixed1StripNonneg (-q) else jsToFixed1StripNonneg q

/-- `formatResistance` from the source: metric suffix formatting with one
decimal place and a stripped trailing `.0`. -/
def formatResistance (ohms : ℚ) : String :=
  if ohms ≥ 1000000 then jsToFixed1Strip (ohms / 1000000) ++ "MΩ"
  else if ohms ≥ 1000 then jsToFixed1Strip (ohms / 1000) ++ "kΩ"
  else ratDecimalString ohms ++ "Ω"

/-- Numeric value of a nonempty decimal digit prefix. -/
def digitsVal (l : List Char) : ℕ :=
  l.foldl (fun a c => 10 * a + (c.toNat - 48)) 0

/-- JavaScript `parseInt` on the strings this code builds (an optional sign
followed by a maximal run of decimal digits; `none` models `NaN`). -/
def jsParseInt (s : String) : Option ℤ :=
  match s.data with
  | '-' :: rest =>
      if (rest.takeWhile Char.isDigit) = [] then none
      else some (-(digitsVal (rest.takeWhile Char.isDigit) : ℤ))
  | '+' :: rest =>
      if (rest.takeWhile Char.isDigit) = [] then none
      else some ((digitsVal (rest.takeWhile Char.isDigit) : ℤ))
  | l =>
      if (l.takeWhile Char.isDigit) = [] then none
      else some ((digitsVal (l.takeWhile Char.isDigit) : ℤ))

/-- The tail of `calculateResistorValue` once the band roles have been
assigned (source lines 555-567): reject if there is no digit band, a digit
band lacks a `value`, or the multiplier band lacks a `multiplier`;
otherwise concatenate the digit values as a base-10 literal
(`parseInt(digits.map(d => d.value).join(''))`), multiply by the multiplier
and format, defaulting the tolerance to 20 when no (truthy) tolerance is
present. -/
def decodeRoles (digits : List ResistorColor) (multiplierObj : Option ResistorColor)
    (toleranceObj : Option ResistorColor) : Option String :=
  match multiplierObj with
  | none => some "Invalid band sequence"
  | some m =>
    if digits.length = 0 ∨ digits.any (fun d => d.value.isNone) ∨ m.multiplier.isNone then
      some "Invalid band sequence"
    else
      let digitValue : ℤ :=
        (jsParseInt (String.join (digits.map (fun d => intStr (d.value.getD 0))))).getD 0
      let resistance : ℚ := (digitValue : ℚ) * m.multiplier.getD 0
      let tol : ℚ :=
        match toleranceObj with
        | some t => match t.tolerance with
                    | some tv => if tv = 0 then 20 else tv
                    | none => 20
        | none => 20
      some (formatResistance resistance ++ " ±" ++ ratDecimalString tol ++ "%")

/-- `calculateResistorValue` from the source: `null` for fewer than 3 names,
"Not enough valid bands" when fewer than 3 names resolve against the
catalog; otherwise the last resolved band decides the layout: if it carries
a `tolerance` it is the tolerance band and the second-to-last the
multiplier, else the last band is the multiplier (3-band layout). -/
def calculateResistorValue (bands : List String) : Option String :=
  if bands.length < 3 then none
  else
    let objs := bands.filterMap lookupColor
    if objs.length < 3 then some "Not enough valid bands"
    else
      match objs.getLast? with
      | some lastBand =>
          if lastBand.tolerance.isSome then
            decodeRoles objs.dropLast.dropLast objs.dropLast.getLast? (some lastBand)
          else
            decodeRoles objs.dropLast (some lastBand) none
      | none => none

/-- `Math.floor(Math.log10 n)` for a positive natural number: `Nat.log`. -/
def natFloorLog10 (n : ℕ) : ℕ := Nat.log 10 n

/-- `⌈log10 t⌉` for a rational `t ≥ 1`. -/
def ceilLog10 (t : ℚ) : ℤ :=
  let d := natFloorLog10 ⌊t⌋.toNat
  if ((10 : ℚ)) ^ d = t then (d : ℤ) else (d : ℤ) + 1

/-- `Math.floor(Math.log10 q)` for a positive rational, exactly. -/
def floorLog10 (q : ℚ) : ℤ :=
  if 1 ≤ q then (natFloorLog10 ⌊q⌋.toNat : ℤ) else -(ceilLog10 q⁻¹)

/-- `Math.round(Math.log10 q)` for a positive rational, exactly: the unique
`k` with `10 ^ (2k - 1) ≤ q ^ 2 < 10 ^ (2k + 1)` (a rational is never
exactly `10 ^ (k + 1/2)`, so no tie is possible). -/
def roundLog10 (q : ℚ) : ℤ := (floorLog10 (q * q) + 1).ediv 2

/-- The digit color table local to `resistanceToColors` in the source. -/
def encoderColorMap : List (String × ℤ) :=
  [("Black", 0), ("Brown", 1), ("Red", 2), ("Orange", 3), ("Yellow", 4),
   ("Green", 5), ("Blue", 6), ("Violet", 7), ("Gray", 8), ("White", 9)]

/-- The tolerance code table local to `resistanceToColors` in the source. -/
def encoderToleranceMap : List (String × String) :=
  [("1", "Brown"), ("2", "Red"), ("0.5", "Green"), ("0.25", "Blue"),
   ("0.1", "Violet"), ("5", "Gold"), ("10", "Silver"), ("20", "None")]

/-- `firstTwoDigits` as computed by `resistanceToColors`:
`Math.round(ohms / 10^(exponent-1))`, renormalized to 10 when the rounding
carries to exactly 100. -/
def encFirstTwoDigits (ohms : ℚ) : ℤ :=
  let ftd0 := round (ohms / (10 : ℚ) ^ (floorLog10 ohms - 1))
  if ftd0 = 100 then 10 else ftd0

/-- The multiplier band name chosen by `resistanceToColors`.  The source
computes `multiplierValue = Math.log10(ohms / firstTwoDigits) + 1`, tests
it with `=== -1` / `=== -2` (Gold / Silver) and otherwise looks up
`Math.round(multiplierValue)` in the digit table; exactly,
`multiplierValue = -1` iff `ohms / firstTwoDigits = 1/100`,
`= -2` iff `= 1/1000`, and `Math.round(multiplierValue)` is
`roundLog10 (ohms / firstTwoDigits) + 1`.  The empty-string sentinel of the
source (falsy, aborting the encoder) is `none`. -/
def encMultiplierName (q : ℚ) : Option String :=
  if q = 1 / 100 then some "Gold"
  else if q = 1 / 1000 then some "Silver"
  else (encoderColorMap.find? (fun c => c.2 = roundLog10 q + 1)).map (fun c => c.1)

/-- The tolerance band appended by `resistanceToColors`: look the code up in
the table, drop it when absent or mapped to "None". -/
def encToleranceSuffix (tolerance : Option String) : List String :=
  match tolerance with
  | some t =>
      match (encoderToleranceMap.find? (fun c => c.1 = t)).map (fun c => c.2) with
      | some tc => if tc = "None" then [] else [tc]
      | none => []
  | none => []

/-- `resistanceToColors` from the source, over exact rationals.  The
floating-point expressions `Math.floor(Math.log10 ohms)`,
`Math.round(ohms / 10^(exponent-1))` and
`multiplierValue = Math.log10(ohms / firstTwoDigits) + 1` are modelled
exactly (see `floorLog10`, `encFirstTwoDigits`, `encMultiplierName`). -/
def resistanceToColors (ohms : ℚ) (tolerance : Option String) : List String :=
  if ohms < 0.1 then []
  else
    let firstTwoDigits := encFirstTwoDigits ohms
    let firstBand := encoderColorMap.find? (fun c => c.2 = firstTwoDigits.ediv 10)
    let secondBand := encoderColorMap.find? (fun c => c.2 = firstTwoDigits.emod 10)
    match firstBand, secondBand, encMultiplierName (ohms / (firstTwoDigits : ℚ)) with
    | some f, some s, some m => [f.1, s.1, m] ++ encToleranceSuffix tolerance
    | _, _, _ => []

/-- The distinct names of a sequence in first-occurrence order: the keys of
the `colorCounts` object built by `findDominantColor` (JavaScript object
keys enumerate in insertion order). -/
def dominantKeys (bands : List String) : List String :=
  bands.foldl (fun acc n => if n ∈ acc then acc else acc ++ [n]) []

/-- The head of `Object.entries(colorCounts).sort((a,b) => b[1]-a[1])`:
JavaScript's stable sort keeps the first-encountered name ahead on equal
counts, so the head is the earliest key attaining the maximal count. -/
def dominantTop (bands : List String) : Option String :=
  (dominantKeys bands).foldl
    (fun best n =>
      match best with
      | none => some n
      | some bst => if bands.count n > bands.count bst then some n else best)
    none

/-- `findDominantColor` from the source, on name sequences: the most
frequent name, but only if it occurs more than once. -/
def findDominantColor (bands : List String) : Option String :=
  match dominantTop bands with
  | some bst => if bands.count bst > 1 then some bst else none
  | none => none

/-- Modelled from the spec: the caller-side dominant-color body filter (the
spec's §4.5 "Body-band removal (performed by the caller before invoking
this decoder)"); no caller under `src/` performs it, so it is taken from
the spec's words: remove every occurrence of `findDominantColor seq` when
that is non-null, otherwise pass the sequence through unchanged. -/
def dominantFilter (seq : List String) : List String :=
  match findDominantColor seq with
  | none => seq
  | some d => seq.filter (fun n => n ≠ d)

/-!
Second layer: the perceptual pipeline over the reals.  JavaScript doubles
are modelled by exact real numbers; `Math.pow`, `Math.sqrt` and
`Math.atan2` become `Real.rpow`, `Real.sqrt` and the arctangent-based
`jsAtan2`.
-/

/-- An RGB triple as handled by the pixel pipeline (arbitrary numbers). -/
structure RGB where
  r : ℝ
  g : ℝ
  b : ℝ

/-- A Lab triple: lightness, green-red axis, blue-yellow axis. -/
@[ext]
structure Lab where
  l : ℝ
  a : ℝ
  b : ℝ

/-- The per-channel sRGB gamma expansion inside `rgbToLab`:
`c > 0.04045 ? ((c + 0.055)/1.055)^2.4 : c/12.92`. -/
noncomputable def gammaExpand (u : ℝ) : ℝ :=
  if u > 0.04045 then ((u + 0.055) / 1.055) ^ (2.4 : ℝ) else u / 12.92

/-- The Lab nonlinearity inside `rgbToLab`:
`t > 0.008856 ? t^(1/3) : 7.787*t + 16/116`. -/
noncomputable def labF (t : ℝ) : ℝ :=
  if t > 0.008856 then t ^ ((1 : ℝ) / 3) else 7.787 * t + 16 / 116

/-- The XYZ coordinates computed inside `rgbToLab` (linear combination of
the gamma-expanded channels, scaled by 100). -/
noncomputable def rgbToX (c : RGB) : ℝ :=
  (gammaExpand (c.r / 255) * 0.4124564 + gammaExpand (c.g / 255) * 0.3575761 +
    gammaExpand (c.b / 255) * 0.1804375) * 100

/-- Y coordinate of `rgbToLab`. -/
noncomputable def rgbToY (c : RGB) : ℝ :=
  (gammaExpand (c.r / 255) * 0.2126729 + gammaExpand (c.g / 255) * 0.7151522 +
    gammaExpand (c.b / 255) * 0.0721750) * 100

/-- Z coordinate of `rgbToLab`. -/
noncomputable def rgbToZ (c : RGB) : ℝ :=
  (gammaExpand (c.r / 255) * 0.0193339 + gammaExpand (c.g / 255) * 0.1191920 +
    gammaExpand (c.b / 255) * 0.9503041) * 100

/-- `rgbToLab` from the source: sRGB → linear RGB → XYZ (D65) → Lab. -/
noncomputable def rgbToLab (c : RGB) : Lab :=
  { l := 116 * labF (rgbToY c / 100) - 16
    a := 500 * (labF (rgbToX c / 95.047) - labF (rgbToY c / 100))
    b := 200 * (labF (rgbToY c / 100) - labF (rgbToZ c / 108.883)) }

/-- `colorDistance` from the source: CIE76 ΔE, the euclidean distance of
the two Lab representations. -/
noncomputable def colorDistance (c1 c2 : RGB) : ℝ :=
  Real.sqrt (((rgbToLab c1).l - (rgbToLab c2).l) ^ 2 +
    ((rgbToLab c1).a - (rgbToLab c2).a) ^ 2 + ((rgbToLab c1).b - (rgbToLab c2).b) ^ 2)

/-- Lab chroma `sqrt(a² + b²)` as computed in `findClosestColor` and
`extractBands`. -/
noncomputable def chromaOf (lab : Lab) : ℝ :=
  Real.sqrt (lab.a ^ 2 + lab.b ^ 2)

/-- JavaScript `Math.atan2`. -/
noncomputable def jsAtan2 (y x : ℝ) : ℝ :=
  if x > 0 then Real.arctan (y / x)
  else if x < 0 then
    (if y ≥ 0 then Real.arctan (y / x) + Real.pi else Real.arctan (y / x) - Real.pi)
  else if y > 0 then Real.pi / 2
  else if y < 0 then -(Real.pi / 2)
  else 0

/-- The pixel hue angle of `findClosestColor`:
`Math.atan2(lab.b, lab.a) * (180 / Math.PI)`. -/
noncomputable def hueAngleOf (lab : Lab) : ℝ :=
  jsAtan2 lab.b lab.a * (180 / Real.pi)

/-- Substring test on character lists (JavaScript `String.includes`). -/
def listHasInfix (pat : List Char) : List Char → Bool
  | [] => pat.isEmpty
  | c :: t => pat.isPrefixOf (c :: t) || listHasInfix pat t

/-- JavaScript `s.includes(pat)`. -/
def strContains (s pat : String) : Bool := listHasInfix pat.data s.data

/-- JavaScript `s.startsWith(pat)`. -/
def strStartsWith (s pat : String) : Bool := pat.data.isPrefixOf s.data

/-- The neutral-role test of `findClosestColor`:
`['Black','Gray','White','Silver'].includes(name) || name.includes('(Body)')`. -/
def isNeutralName (c : ResistorColor) : Bool :=
  (["Black", "Gray", "White", "Silver"].contains c.name) || strContains c.name "(Body)"

/-- The bias-adjusted catalog distance of `findClosestColor` (source lines
463-500): raw Lab distance, then the neutral-color chroma penalty, the
Gold/Silver discounts gated on the pixel looking gold-like
(`chroma > 30 && 60 < hue < 100`), and the body-color chroma adjustments.
`pc` and `hue` are the pixel chroma and hue angle computed once before the
loop. -/
noncomputable def biasedCatalogDist (pixel : RGB) (pc hue : ℝ) (color : ResistorColor) : ℝ :=
  let dist0 := colorDistance pixel ⟨(color.r : ℝ), (color.g : ℝ), (color.b : ℝ)⟩
  let d1 := if pc > 10 ∧ isNeutralName color then dist0 * (1 + pc / 50) else dist0
  let d2 :=
    if strStartsWith color.name "Gold" then
      (if pc > 30 ∧ hue > 60 ∧ hue < 100 then d1 * 0.55 else d1 * 0.75)
    else if color.name = "Silver" then d1 * 0.8
    else d1
  if strContains color.name "(Body)" then
    (if pc > 35 then d2 * 1.5 else if pc < 15 then d2 * 0.85 else d2 * 0.95)
  else d2

/-- One step of the catalog loop of `findClosestColor`: the running state is
`(minDist, closest)` with `none` modelling the initial `Infinity`; a
catalog entry replaces the running best when its biased distance is
less than or equal to the running minimum (`dist <= minDist`). -/
noncomputable def catStep (pixel : RGB) (pc hue : ℝ) :
    Option ℝ × ResistorColor → ResistorColor → Option ℝ × ResistorColor :=
  fun st color =>
    let d := biasedCatalogDist pixel pc hue color
    match st with
    | (none, _) => (some d, color)
    | (some m, c) => if d ≤ m then (some d, color) else (some m, c)

/-- One step of the custom-color loop of `findClosestColor`: distance times
the 0.7 trust bias, strict `<` comparison, and the winning custom color is
mapped onto the `ResistorColor` shape with `value := -1`. -/
noncomputable def customStep (pixel : RGB) :
    Option ℝ × ResistorColor → CustomColor → Option ℝ × ResistorColor :=
  fun st color =>
    let d := colorDistance pixel ⟨(color.r : ℝ), (color.g : ℝ), (color.b : ℝ)⟩ * 0.7
    match st with
    | (none, _) => (some d, ⟨color.name, color.r, color.g, color.b, some (-1), none, none⟩)
    | (some m, c) =>
        if d < m then (some d, ⟨color.name, color.r, color.g, color.b, some (-1), none, none⟩)
        else (some m, c)

/-- The canonicalization tail of `findClosestColor`: a (nonempty) winner
name starting with "Gold" is replaced by the canonical "Gold" entry, and
"Violet_Dark" by the canonical "Violet" entry. -/
def canonicalizeColor (c : ResistorColor) : ResistorColor :=
  if c.name ≠ "" ∧ strStartsWith c.name "Gold" then
    (RESISTOR_COLORS.find? (fun x => x.name = "Gold")).getD c
  else if c.name = "Violet_Dark" then
    (RESISTOR_COLORS.find? (fun x => x.name = "Violet")).getD c
  else c

/-- `findClosestColor` from the source: fold the custom colors (strict `<`,
bias 0.7), then the catalog (biased distances, `<=` comparison), starting
from `minDist = Infinity` and `closest = RESISTOR_COLORS[0]`, and
canonicalize the winner. -/
noncomputable def findClosestColor (pixel : RGB) (customColors : List CustomColor) :
    ResistorColor :=
  let init : Option ℝ × ResistorColor := (none, RESISTOR_COLORS.headI)
  let afterCustom := customColors.foldl (customStep pixel) init
  let pixelLab := rgbToLab pixel
  let pc := chromaOf pixelLab
  let hue := hueAngleOf pixelLab
  canonicalizeColor (RESISTOR_COLORS.foldl (catStep pixel pc hue) afterCustom).2

/-- An entry of the averaged scan line built by `extractBands`: rounded
average color of one column plus its coordinate. -/
structure AvgPx where
  r : ℝ
  g : ℝ
  b : ℝ
  x : ℕ

/-- A contiguous same-color segment of the scan line. -/
structure Segment where
  start_x : ℕ
  end_x : ℕ
  pixels : List AvgPx

/-- A classified band as returned by `extractBands`. -/
structure Band where
  x : ℕ
  colorName : String
  rgb : RGB
  l : ℝ
  width : ℕ
  chroma : ℝ

/-- `averageColor` from the source: per-channel rounded mean, `(0,0,0)` for
an empty list. -/
noncomputable def averageColor (colors : List AvgPx) : RGB :=
  if colors.length = 0 then ⟨0, 0, 0⟩
  else
    ⟨((round ((colors.map (fun p => p.r)).sum / colors.length) : ℤ) : ℝ),
     ((round ((colors.map (fun p => p.g)).sum / colors.length) : ℤ) : ℝ),
     ((round ((colors.map (fun p => p.b)).sum / colors.length) : ℤ) : ℝ)⟩

/-- `Math.round((start_x + end_x) / 2)` on natural coordinates. -/
def centerX (s e : ℕ) : ℕ := (s + e + 1) / 2

/-- One column of the averaged scan line of `extractBands`: the rounded
mean over rows `floor(height*0.25) ≤ y < floor(height*0.75)` of the pixels
present at index `y * width + x` (missing indices contribute nothing; a
column with no pixel becomes black), tagged with `x`. -/
noncomputable def averagedCol (pixels : List RGB) (width height : ℕ) (x : ℕ) : AvgPx :=
  let sel := (List.range' (height / 4) (3 * height / 4 - height / 4)).filterMap
    (fun y => pixels.get? (y * width + x))
  if 0 < sel.length then
    ⟨((round ((sel.map (fun p => p.r)).sum / sel.length) : ℤ) : ℝ),
     ((round ((sel.map (fun p => p.g)).sum / sel.length) : ℤ) : ℝ),
     ((round ((sel.map (fun p => p.b)).sum / sel.length) : ℤ) : ℝ), x⟩
  else ⟨0, 0, 0, x⟩

/-- The averaged scan line of `extractBands`: one `averagedCol` per column. -/
noncomputable def averagedLine (pixels : List RGB) (width height : ℕ) : List AvgPx :=
  (List.range width).map (averagedCol pixels width height)

/-- The run-length segmentation loop of `extractBands`: walk the averaged
line, closing the current segment whenever the color distance to the
previous entry exceeds the threshold. -/
noncomputable def segBuild (thr : ℝ) :
    List Segment → Segment → AvgPx → List AvgPx → List Segment
  | segs, cur, _, [] => segs ++ [cur]
  | segs, cur, prev, c :: rest =>
      if colorDistance ⟨prev.r, prev.g, prev.b⟩ ⟨c.r, c.g, c.b⟩ > thr then
        segBuild thr (segs ++ [cur]) ⟨c.x, c.x, [c]⟩ c rest
      else
        segBuild thr segs ⟨cur.start_x, c.x, cur.pixels ++ [c]⟩ c rest

/-- The segments of the averaged line (empty line gives no segments). -/
noncomputable def segmentsOf (thr : ℝ) (line : List AvgPx) : List Segment :=
  match line with
  | [] => []
  | a :: rest => segBuild thr [] ⟨a.x, a.x, [a]⟩ a rest

/-- The median segment width statistic of `extractBands`: widths of at
least `minBandWidth = 3`, sorted ascending, indexed at `floor(len/2)`,
defaulting to 10. -/
def medianWidthOf (segments : List Segment) : ℕ :=
  let allWidths := (segments.map (fun s => s.end_x - s.start_x + 1)).filter (fun w => 3 ≤ w)
  if 0 < allWidths.length then
    (allWidths.mergeSort (fun a b => decide (a ≤ b))).getD (allWidths.length / 2) 10
  else 10

/-- `RESISTOR_COLORS.find(c => c.name === 'Silver')` fallback used by the
reclassification rules (`if (silverColor) resistorColor = silverColor`). -/
def silverOr (c : ResistorColor) : ResistorColor :=
  (RESISTOR_COLORS.find? (fun x => x.name = "Silver")).getD c

/-- Fallback to the canonical Gold entry, as `silverOr`. -/
def goldOr (c : ResistorColor) : ResistorColor :=
  (RESISTOR_COLORS.find? (fun x => x.name = "Gold")).getD c

/-- The per-segment admission/classification step of `extractBands`
(source lines 660-737): reject narrow segments, classify, apply the
edge-position Silver/Gold candidate overrides and the body-to-Gold rescue,
reject extreme lightness for non-metallic colors, reject wide mid-image
body segments, and emit the band. -/
noncomputable def segmentToBand (customColors : List CustomColor) (segCount medianWidth : ℕ)
    (index : ℕ) (seg : Segment) : Option Band :=
  let avgColor := averageColor seg.pixels
  let lab := rgbToLab avgColor
  let l := lab.l
  let segWidth := seg.end_x - seg.start_x + 1
  if segWidth < 3 then none
  else
    let c0 := findClosestColor avgColor customColors
    let isAtEdge := index = 0 ∨ segCount - 2 ≤ index
    let chroma := Real.sqrt (lab.a ^ 2 + lab.b ^ 2)
    let isCandidateSilver := (|lab.a| < 3 ∧ |lab.b| < 3) ∧ l > 60 ∧ l < 95 ∧
      (segWidth : ℝ) < (medianWidth : ℝ) * 1.5 ∧ isAtEdge
    let isCandidateGold := (lab.a > -5 ∧ lab.b > 20) ∧ chroma > 30 ∧ l > 25 ∧ l < 90 ∧
      (segWidth : ℝ) < (medianWidth : ℝ) * 1.2 ∧ isAtEdge
    let c1 := if isCandidateSilver then silverOr c0
              else if isCandidateGold then goldOr c0 else c0
    let c2 := if strContains c1.name "(Body)" ∧ isAtEdge ∧ chroma > 30 ∧ lab.b > 25 ∧
                 (segWidth : ℝ) < (medianWidth : ℝ) * 1.2 then goldOr c1 else c1
    let isMetallic := strStartsWith c2.name "Gold" ∨ c2.name = "Silver"
    if ¬ isMetallic ∧ (l < 5 ∨ l > 99) then none
    else if ¬ isAtEdge ∧ (segWidth : ℝ) > (medianWidth : ℝ) * 2.5 ∧
              strContains c2.name "Body" then none
    else some ⟨centerX seg.start_x seg.end_x, c2.name, avgColor, l, segWidth, chroma⟩

/-- `extractBands` from the source (the full version at lines 609-740 of
`src/index.ts`): average the central rows column-wise, segment by the color
change threshold, admit/classify each segment and sort the bands by center
coordinate ascending. -/
noncomputable def extractBands (pixels : List RGB) (width height : ℕ) (thr : ℝ)
    (customColors : List CustomColor) : List Band :=
  if pixels.length = 0 ∨ width = 0 ∨ height = 0 then []
  else
    let line := averagedLine pixels width height
    if line.length = 0 then []
    else
      let segments := segmentsOf thr line
      let medianWidth := medianWidthOf segments
      let finalBands := segments.enum.filterMap
        (fun p => segmentToBand customColors segments.length medianWidth p.1 p.2)
      finalBands.mergeSort (fun a b => decide (a.x ≤ b.x))

/-! Named catalog entries, for stating concrete results. -/

/-- The "Brown" catalog entry. -/
def rcBrown : ResistorColor :=
  { name := "Brown", r := 165, g := 42, b := 42, value := some 1, multiplier := some 10, tolerance := some 1 }

/-- The "Black" catalog entry. -/
def rcBlack : ResistorColor :=
  { name := "Black", r := 0, g := 0, b := 0, value := some 0, multiplier := some 1 }

/-- The "Red" catalog entry. -/
def rcRed : ResistorColor :=
  { name := "Red", r := 255, g := 0, b := 0, value := some 2, multiplier := some 100, tolerance := some 2 }

/-- The "Orange" catalog entry. -/
def rcOrange : ResistorColor :=
  { name := "Orange", r := 255, g := 165, b := 0, value := some 3, multiplier := some 1000 }

/-- The "Yellow" catalog entry. -/
def rcYellow : ResistorColor :=
  { name := "Yellow", r := 255, g := 255, b := 0, value := some 4, multiplier := some 10000 }

/-- The "Blue" catalog entry. -/
def rcBlue : ResistorColor :=
  { name := "Blue", r := 0, g := 0, b := 255, value := some 6, multiplier := some 1000000, tolerance := some 0.25 }

/-- The "Violet" catalog entry. -/
def rcViolet : ResistorColor :=
  { name := "Violet", r := 238, g := 130, b := 238, value := some 7, multiplier := some 10000000, tolerance := some 0.1 }

/-- The "Gold" catalog entry (the canonical Gold). -/
def rcGold : ResistorColor :=
  { name := "Gold", r := 255, g := 215, b := 0, multiplier := some 0.1, tolerance := some 5 }

/-- The "Silver" catalog entry. -/
def rcSilver : ResistorColor :=
  { name := "Silver", r := 192, g := 192, b := 192, multiplier := some 0.01, tolerance := some 10 }

/-- The "Green" catalog entry. -/
def rcGreen : ResistorColor :=
  { name := "Green", r := 0, g := 128, b := 0, value := some 5, multiplier := some 100000, tolerance := some 0.5 }

/-- The "Gray" catalog entry. -/
def rcGray : ResistorColor :=
  { name := "Gray", r := 128, g := 128, b := 128, value := some 8, multiplier := some 100000000, tolerance := some 0.05 }

/-- The "White" catalog entry. -/
def rcWhite : ResistorColor :=
  { name := "White", r := 255, g := 255, b := 255, value := some 9, multiplier := some 1000000000 }

/-- The "Gold_Light" catalog entry. -/
def rcGoldLight : ResistorColor :=
  { name := "Gold_Light", r := 255, g := 220, b := 100, value := some (-1), tolerance := some 5 }

/-- The "Gold_Metallic" catalog entry. -/
def rcGoldMetallic : ResistorColor :=
  { name := "Gold_Metallic", r := 212, g := 175, b := 55, value := some (-1), tolerance := some 5 }

/-- The "Gold_Dark" catalog entry. -/
def rcGoldDark : ResistorColor :=
  { name := "Gold_Dark", r := 184, g := 134, b := 11, value := some (-1), tolerance := some 5 }

/-- The "Gold_Ochre" catalog entry. -/
def rcGoldOchre : ResistorColor :=
  { name := "Gold_Ochre", r := 204, g := 119, b := 34, value := some (-1), tolerance := some 5 }

/-- The "Beige (Body)" catalog entry. -/
def rcBeige : ResistorColor := { name := "Beige (Body)", r := 245, g := 245, b := 220 }

/-- The "Tan (Body)" catalog entry. -/
def rcTan : ResistorColor := { name := "Tan (Body)", r := 210, g := 180, b := 140 }

/-- The "Sandy (Body)" catalog entry. -/
def rcSandy : ResistorColor := { name := "Sandy (Body)", r := 244, g := 164, b := 96 }

/-- The "Cream (Body)" catalog entry. -/
def rcCream : ResistorColor := { name := "Cream (Body)", r := 255, g := 253, b := 208 }

/-- The "Khaki (Body)" catalog entry. -/
def rcKhaki : ResistorColor := { name := "Khaki (Body)", r := 195, g := 176, b := 145 }

/-- The "Light Blue (Body)" catalog entry. -/
def rcLightBlue : ResistorColor := { name := "Light Blue (Body)", r := 173, g := 216, b := 230 }

/-- The "Violet_Dark" catalog entry. -/
def rcVioletDark : ResistorColor :=
  { name := "Violet_Dark", r := 100, g := 50, b := 150, value := some 7, multiplier := some 10000000, tolerance := some 0.1 }

/-- The specification-level description of the tie-breaking the catalog
loop of `findClosestColor` actually implements: starting from `e`, a later
entry replaces the running best exactly when its biased distance is less
than or equal to the best's, so the entry kept is the LAST one attaining
the minimal biased distance. -/
noncomputable def lastArgminBias (pixel : RGB) (pc hue : ℝ) (e : ResistorColor)
    (l : List ResistorColor) : ResistorColor :=
  l.foldl
    (fun best c =>
      if biasedCatalogDist pixel pc hue c ≤ biasedCatalogDist pixel pc hue best then c else best)
    e

/-!
Evaluation lemmas for the exact-arithmetic layer.
-/

theorem floorLog10_natCast (n k : ℕ) (h1 : 10 ^ k ≤ n) (h2 : n < 10 ^ (k + 1)) :
    floorLog10 (n : ℚ) = k := by
  have h1q : (1 : ℚ) ≤ (n : ℚ) := by
    have : 1 ≤ n := le_trans (Nat.one_le_pow _ _ (by norm_num)) h1
    exact_mod_cast this
  rw [floorLog10, if_pos h1q]
  norm_num [natFloorLog10]
  exact Nat.log_eq_of_pow_le_of_lt_pow h1 h2

theorem floorLog10_10 : floorLog10 10 = 1 := by
  simpa using floorLog10_natCast 10 1 (by norm_num) (by norm_num)

theorem floorLog10_100 : floorLog10 100 = 2 := by
  simpa using floorLog10_natCast 100 2 (by norm_num) (by norm_num)

theorem floorLog10_220 : floorLog10 220 = 2 := by
  simpa using floorLog10_natCast 220 2 (by norm_num) (by norm_num)

theorem floorLog10_1000 : floorLog10 1000 = 3 := by
  simpa using floorLog10_natCast 1000 3 (by norm_num) (by norm_num)

theorem floorLog10_4700 : floorLog10 4700 = 3 := by
  simpa using floorLog10_natCast 4700 3 (by norm_num) (by norm_num)

theorem floorLog10_10000 : floorLog10 10000 = 4 := by
  simpa using floorLog10_natCast 10000 4 (by norm_num) (by norm_num)

theorem floorLog10_1e6 : floorLog10 1000000 = 6 := by
  simpa using floorLog10_natCast 1000000 6 (by norm_num) (by norm_num)

theorem floorLog10_1e10 : floorLog10 10000000000 = 10 := by
  simpa using floorLog10_natCast 10000000000 10 (by norm_num) (by norm_num)

theorem roundLog10_10 : roundLog10 10 = 1 := by
  rw [roundLog10, (by norm_num : (10 : ℚ) * 10 = 100), floorLog10_100]; decide

theorem roundLog10_100 : roundLog10 100 = 2 := by
  rw [roundLog10, (by norm_num : (100 : ℚ) * 100 = 10000), floorLog10_10000]; decide

theorem roundLog10_1e5 : roundLog10 100000 = 5 := by
  rw [roundLog10, (by norm_num : (100000 : ℚ) * 100000 = 10000000000), floorLog10_1e10]; decide

theorem encFtd_1000 : encFirstTwoDigits 1000 = 10 := by
  rw [encFirstTwoDigits, floorLog10_1000]; norm_num [round_eq]

theorem encFtd_220 : encFirstTwoDigits 220 = 22 := by
  rw [encFirstTwoDigits, floorLog10_220]; norm_num [round_eq]

theorem encFtd_4700 : encFirstTwoDigits 4700 = 47 := by
  rw [encFirstTwoDigits, floorLog10_4700]; norm_num [round_eq]

theorem encFtd_1e6 : encFirstTwoDigits 1000000 = 10 := by
  rw [encFirstTwoDigits, floorLog10_1e6]; norm_num [round_eq]

theorem encMult_10 : encMultiplierName 10 = some "Red" := by
  rw [encMultiplierName, if_neg (by norm_num), if_neg (by norm_num), roundLog10_10]; decide

theorem encMult_100 : encMultiplierName 100 = some "Orange" := by
  rw [encMultiplierName, if_neg (by norm_num), if_neg (by norm_num), roundLog10_100]; decide

theorem encMult_1e5 : encMultiplierName 100000 = some "Blue" := by
  rw [encMultiplierName, if_neg (by norm_num), if_neg (by norm_num), roundLog10_1e5]; decide

theorem resistanceToColors_1000_5 :
    resistanceToColors 1000 (some "5") = ["Brown", "Black", "Orange", "Gold"] := by
  rw [resistanceToColors, if_neg (by norm_num : ¬ (1000 : ℚ) < 0.1), encFtd_1000]
  norm_num [encMult_100]
  decide

theorem resistanceToColors_220_5 :
    resistanceToColors 220 (some "5") = ["Red", "Red", "Red", "Gold"] := by
  rw [resistanceToColors, if_neg (by norm_num : ¬ (220 : ℚ) < 0.1), encFtd_220]
  norm_num [(by norm_num : (220 : ℚ) / 22 = 10), encMult_10]
  decide

theorem resistanceToColors_220_20 :
    resistanceToColors 220 (some "20") = ["Red", "Red", "Red"] := by
  rw [resistanceToColors, if_neg (by norm_num : ¬ (220 : ℚ) < 0.1), encFtd_220]
  norm_num [(by norm_num : (220 : ℚ) / 22 = 10), encMult_10]
  decide

theorem resistanceToColors_4700_10 :
    resistanceToColors 4700 (some "10") = ["Yellow", "Violet", "Orange", "Silver"] := by
  rw [resistanceToColors, if_neg (by norm_num : ¬ (4700 : ℚ) < 0.1), encFtd_4700]
  norm_num [(by norm_num : (4700 : ℚ) / 47 = 100), encMult_100]
  decide

theorem resistanceToColors_1e6_5 :
    resistanceToColors 1000000 (some "5") = ["Brown", "Black", "Blue", "Gold"] := by
  rw [resistanceToColors, if_neg (by norm_num : ¬ (1000000 : ℚ) < 0.1), encFtd_1e6]
  norm_num [(by norm_num : (1000000 : ℚ) / 10 = 100000), encMult_1e5]
  decide

/-- Generic unfolding of `calculateResistorValue` once the resolved catalog
objects and the last of them are known. -/
theorem calculateResistorValue_eval (bands : List String) (objs : List ResistorColor)
    (lastB : ResistorColor) (h3 : 3 ≤ bands.length)
    (hobjs : bands.filterMap lookupColor = objs) (hlen : 3 ≤ objs.length)
    (hlast : objs.getLast? = some lastB) :
    calculateResistorValue bands =
      if lastB.tolerance.isSome then
        decodeRoles objs.dropLast.dropLast objs.dropLast.getLast? (some lastB)
      else
        decodeRoles objs.dropLast (some lastB) none := by
  rw [calculateResistorValue, if_neg (by omega)]
  simp only [hobjs]
  rw [if_neg (by omega), hlast]

theorem formatResistance_1000 : formatResistance 1000 = "1kΩ" := by
  norm_num [formatResistance, jsToFixed1Strip, jsToFixed1StripNonneg, round_eq, intStr]
  rfl

theorem formatResistance_2200 : formatResistance 2200 = "2.2kΩ" := by
  norm_num [formatResistance, jsToFixed1Strip, jsToFixed1StripNonneg, round_eq, intStr]
  rfl

theorem formatResistance_47000 : formatResistance 47000 = "47kΩ" := by
  norm_num [formatResistance, jsToFixed1Strip, jsToFixed1StripNonneg, round_eq, intStr]
  rfl

theorem formatResistance_1e7 : formatResistance 10000000 = "10MΩ" := by
  norm_num [formatResistance, jsToFixed1Strip, jsToFixed1StripNonneg, round_eq, intStr]
  rfl

theorem formatResistance_2e7 : formatResistance 20000000 = "20MΩ" := by
  norm_num [formatResistance, jsToFixed1Strip, jsToFixed1StripNonneg, round_eq, intStr]
  rfl

theorem formatResistance_200 : formatResistance 200 = "200Ω" := by
  norm_num [formatResistance, ratDecimalString, ratDecimalStringNonneg, intStr]
  rfl

theorem formatResistance_fifth : formatResistance (1 / 5) = "0.2Ω" := by
  norm_num [formatResistance, ratDecimalString, ratDecimalStringNonneg, intStr]
  rfl

theorem ratDecimalString_5 : ratDecimalString 5 = "5" := by
  norm_num [ratDecimalString, ratDecimalStringNonneg, intStr]
  rfl

theorem ratDecimalString_10 : ratDecimalString 10 = "10" := by
  norm_num [ratDecimalString, ratDecimalStringNonneg, intStr]
  rfl

theorem ratDecimalString_2 : ratDecimalString 2 = "2" := by
  norm_num [ratDecimalString, ratDecimalStringNonneg, intStr]
  rfl

theorem ratDecimalString_20 : ratDecimalString 20 = "20" := by
  norm_num [ratDecimalString, ratDecimalStringNonneg, intStr]
  rfl

theorem decodeRoles_1k :
    decodeRoles [rcBrown, rcBlack] (some rcRed) (some rcGold) = some "1kΩ ±5%" := by
  rw [decodeRoles, if_neg (by decide)]
  have hd : (jsParseInt (String.join (List.map (fun d => intStr (d.value.getD 0))
      [rcBrown, rcBlack]))).getD 0 = 10 := by rfl
  simp only [hd]
  simp only [rcRed, rcGold, Option.getD_some]
  norm_num
  rw [formatResistance_1000, ratDecimalString_5]
  rfl

theorem decodeRoles_2200 :
    decodeRoles [rcRed, rcRed] (some rcRed) (some rcGold) = some "2.2kΩ ±5%" := by
  rw [decodeRoles, if_neg (by decide)]
  have hd : (jsParseInt (String.join (List.map (fun d => intStr (d.value.getD 0))
      [rcRed, rcRed]))).getD 0 = 22 := by rfl
  simp only [hd]
  simp only [rcRed, rcGold, Option.getD_some]
  norm_num
  rw [formatResistance_2200, ratDecimalString_5]
  rfl

theorem decodeRoles_47k10 :
    decodeRoles [rcYellow, rcViolet] (some rcOrange) (some rcSilver) = some "47kΩ ±10%" := by
  rw [decodeRoles, if_neg (by decide)]
  have hd : (jsParseInt (String.join (List.map (fun d => intStr (d.value.getD 0))
      [rcYellow, rcViolet]))).getD 0 = 47 := by rfl
  simp only [hd]
  simp only [rcOrange, rcSilver, Option.getD_some]
  norm_num
  rw [formatResistance_47000, ratDecimalString_10]
  rfl

theorem decodeRoles_10M :
    decodeRoles [rcBrown, rcBlack] (some rcBlue) (some rcGold) = some "10MΩ ±5%" := by
  rw [decodeRoles, if_neg (by decide)]
  have hd : (jsParseInt (String.join (List.map (fun d => intStr (d.value.getD 0))
      [rcBrown, rcBlack]))).getD 0 = 10 := by rfl
  simp only [hd]
  simp only [rcBlue, rcGold, Option.getD_some]
  norm_num
  rw [formatResistance_1e7, ratDecimalString_5]
  rfl

theorem decodeRoles_200 :
    decodeRoles [rcRed] (some rcRed) (some rcRed) = some "200Ω ±2%" := by
  rw [decodeRoles, if_neg (by decide)]
  have hd : (jsParseInt (String.join (List.map (fun d => intStr (d.value.getD 0))
      [rcRed]))).getD 0 = 2 := by rfl
  simp only [hd]
  simp only [rcRed, Option.getD_some]
  norm_num
  rw [formatResistance_200, ratDecimalString_2]
  rfl

theorem decodeRoles_47k20 :
    decodeRoles [rcYellow, rcViolet] (some rcOrange) none = some "47kΩ ±20%" := by
  rw [decodeRoles, if_neg (by decide)]
  have hd : (jsParseInt (String.join (List.map (fun d => intStr (d.value.getD 0))
      [rcYellow, rcViolet]))).getD 0 = 47 := by rfl
  simp only [hd]
  simp only [rcOrange, Option.getD_some]
  norm_num
  rw [formatResistance_47000, ratDecimalString_20]
  rfl

theorem decodeRoles_20M :
    decodeRoles [rcRed] (some rcViolet) (some rcGold) = some "20MΩ ±5%" := by
  rw [decodeRoles, if_neg (by decide)]
  have hd : (jsParseInt (String.join (List.map (fun d => intStr (d.value.getD 0))
      [rcRed]))).getD 0 = 2 := by rfl
  simp only [hd]
  simp only [rcViolet, rcGold, Option.getD_some]
  norm_num
  rw [formatResistance_2e7, ratDecimalString_5]
  rfl

theorem decodeRoles_02 :
    decodeRoles [rcRed] (some rcGold) (some rcGold) = some "0.2Ω ±5%" := by
  rw [decodeRoles, if_neg (by decide)]
  have hd : (jsParseInt (String.join (List.map (fun d => intStr (d.value.getD 0))
      [rcRed]))).getD 0 = 2 := by rfl
  simp only [hd]
  simp only [rcGold, Option.getD_some]
  norm_num
  rw [formatResistance_fifth, ratDecimalString_5]
  rfl

theorem calcRV_1k : calculateResistorValue ["Brown", "Black", "Red", "Gold"] = some "1kΩ ±5%" := by
  rw [calculateResistorValue_eval ["Brown", "Black", "Red", "Gold"]
      [rcBrown, rcBlack, rcRed, rcGold] rcGold (by norm_num) (by rfl) (by norm_num) (by rfl)]
  exact decodeRoles_1k

theorem calcRV_22k : calculateResistorValue ["Red", "Red", "Red", "Gold"] = some "2.2kΩ ±5%" := by
  rw [calculateResistorValue_eval ["Red", "Red", "Red", "Gold"]
      [rcRed, rcRed, rcRed, rcGold] rcGold (by norm_num) (by rfl) (by norm_num) (by rfl)]
  exact decodeRoles_2200

theorem calcRV_47k10 :
    calculateResistorValue ["Yellow", "Violet", "Orange", "Silver"] = some "47kΩ ±10%" := by
  rw [calculateResistorValue_eval ["Yellow", "Violet", "Orange", "Silver"]
      [rcYellow, rcViolet, rcOrange, rcSilver] rcSilver (by norm_num) (by rfl) (by norm_num) (by rfl)]
  exact decodeRoles_47k10

theorem calcRV_10M : calculateResistorValue ["Brown", "Black", "Blue", "Gold"] = some "10MΩ ±5%" := by
  rw [calculateResistorValue_eval ["Brown", "Black", "Blue", "Gold"]
      [rcBrown, rcBlack, rcBlue, rcGold] rcGold (by norm_num) (by rfl) (by norm_num) (by rfl)]
  exact decodeRoles_10M

theorem calcRV_200 : calculateResistorValue ["Red", "Red", "Red"] = some "200Ω ±2%" := by
  rw [calculateResistorValue_eval ["Red", "Red", "Red"]
      [rcRed, rcRed, rcRed] rcRed (by norm_num) (by rfl) (by norm_num) (by rfl)]
  exact decodeRoles_200

theorem calcRV_47k20 : calculateResistorValue ["Yellow", "Violet", "Orange"] = some "47kΩ ±20%" := by
  rw [calculateResistorValue_eval ["Yellow", "Violet", "Orange"]
      [rcYellow, rcViolet, rcOrange] rcOrange (by norm_num) (by rfl) (by norm_num) (by rfl)]
  exact decodeRoles_47k20

theorem calcRV_20M : calculateResistorValue ["Red", "Violet", "Gold"] = some "20MΩ ±5%" := by
  rw [calculateResistorValue_eval ["Red", "Violet", "Gold"]
      [rcRed, rcViolet, rcGold] rcGold (by norm_num) (by rfl) (by norm_num) (by rfl)]
  exact decodeRoles_20M

theorem calcRV_02 : calculateResistorValue ["Red", "Gold", "Gold"] = some "0.2Ω ±5%" := by
  rw [calculateResistorValue_eval ["Red", "Gold", "Gold"]
      [rcRed, rcGold, rcGold] rcGold (by norm_num) (by rfl) (by norm_num) (by rfl)]
  exact decodeRoles_02

/-!
Structural lemmas for the decoder.
-/

theorem decodeRoles_ne_none (digits : List ResistorColor) (m : Option ResistorColor)
    (t : Option ResistorColor) : decodeRoles digits m t ≠ none := by
  cases m
  · simp [decodeRoles]
  · simp only [decodeRoles]
    split <;> simp

theorem lookup_resolved_length (l : List String) (h : ∀ n ∈ l, (lookupColor n).isSome) :
    (l.filterMap lookupColor).length = l.length := by
  induction l with
  | nil => rfl
  | cons a t ih =>
      obtain ⟨v, hv⟩ := Option.isSome_iff_exists.mp (h a (by simp))
      simp only [List.filterMap_cons, hv, List.length_cons]
      rw [ih (fun n hn => h n (by simp [hn]))]

theorem calcRV_none_iff (bands : List String) :
    (calculateResistorValue bands = none ↔ bands.length < 3) := by
  constructor
  · intro h
    by_contra h3
    rw [calculateResistorValue, if_neg h3] at h
    by_cases h2 : (bands.filterMap lookupColor).length < 3
    · rw [if_pos h2] at h
      exact Option.noConfusion h
    · simp only [if_neg h2] at h
      have hne : bands.filterMap lookupColor ≠ [] := by
        intro hnil
        rw [hnil] at h2
        simp at h2
      obtain ⟨lastB, hl⟩ := Option.isSome_iff_exists.mp (List.getLast?_isSome.mpr hne)
      rw [hl] at h
      simp only [] at h
      by_cases ht : lastB.tolerance.isSome
      · rw [if_pos ht] at h
        exact decodeRoles_ne_none _ _ _ h
      · rw [if_neg ht] at h
        exact decodeRoles_ne_none _ _ _ h
  · intro h
    rw [calculateResistorValue, if_pos h]

theorem findDominantColor_of_nodup (l : List String) (h : l.Nodup) :
    findDominantColor l = none := by
  rw [findDominantColor]
  cases htop : dominantTop l with
  | none => rfl
  | some bst =>
      have hc : l.count bst ≤ 1 := List.nodup_iff_count_le_one.mp h bst
      simp only [if_neg (by omega : ¬ l.count bst > 1)]

theorem dominantFilter_of_nodup (l : List String) (h : l.Nodup) :
    dominantFilter l = l := by
  rw [dominantFilter, findDominantColor_of_nodup l h]

theorem decodeRoles_ignores_tolerance_multiplier (digits : List ResistorColor)
    (m : Option ResistorColor) (t : ResistorColor) :
    decodeRoles digits m (some t) =
      decodeRoles digits m (some { t with multiplier := none }) := by
  cases m <;> rfl

theorem calcRV_three (a b c : String) (A B C : ResistorColor)
    (ha : lookupColor a = some A) (hb : lookupColor b = some B) (hc : lookupColor c = some C)
    (ht : C.tolerance.isSome) :
    calculateResistorValue [a, b, c] = decodeRoles [A] (some B) (some C) := by
  have hobjs : [a, b, c].filterMap lookupColor = [A, B, C] := by
    simp [List.filterMap_cons, ha, hb, hc]
  rw [calculateResistorValue_eval [a, b, c] [A, B, C] C (by norm_num) hobjs (by norm_num)
        (by simp),
      if_pos ht]
  rfl

/-!
Claim theorems for the exact-arithmetic layer.
-/

/-- C1: the claim states `resistanceToColors(1000, "5")` returns
`["Brown","Black","Red","Gold"]` with the multiplier band satisfying
`firstTwoDigits × 10^multiplierExponent ≈ ohms`.  The code disagrees: the
`+ 1` in `multiplierValue = Math.log10(ohms / firstTwoDigits) + 1`
overshoots by one decade, so the encoder emits
`["Brown","Black","Orange","Gold"]` (which decodes to 10 kΩ, not 1 kΩ). -/
theorem C1_encoder_1000_emits_orange :
    resistanceToColors 1000 (some "5") = ["Brown", "Black", "Orange", "Gold"] ∧
    resistanceToColors 1000 (some "5") ≠ ["Brown", "Black", "Red", "Gold"] :=
  ⟨resistanceToColors_1000_5, by rw [resistanceToColors_1000_5]; decide⟩

/-- C2: the round-trip
`calculateResistorValue (resistanceToColors ohms tol)` does not recover
`ohms` for the representative standard values: every decoded value is ten
times the encoded one (220 → "2.2kΩ", 4.7k → "47kΩ", 1M → "10MΩ"), and for
the unmarked tolerance code "20" even the tolerance suffix is wrong
(220 → "200Ω ±2%", the trailing Red digit being taken for a tolerance
band). -/
theorem C2_roundtrip_off_by_ten :
    calculateResistorValue (resistanceToColors 220 (some "5")) = some "2.2kΩ ±5%" ∧
    calculateResistorValue (resistanceToColors 4700 (some "10")) = some "47kΩ ±10%" ∧
    calculateResistorValue (resistanceToColors 1000000 (some "5")) = some "10MΩ ±5%" ∧
    calculateResistorValue (resistanceToColors 220 (some "20")) = some "200Ω ±2%" := by
  refine ⟨?_, ?_, ?_, ?_⟩
  · rw [resistanceToColors_220_5]; exact calcRV_22k
  · rw [resistanceToColors_4700_10]; exact calcRV_47k10
  · rw [resistanceToColors_1e6_5]; exact calcRV_10M
  · rw [resistanceToColors_220_20]; exact calcRV_200

/-- C3: for every list of at least 3 names all resolving against the
catalog, `calculateResistorValue` assigns the band roles by inspecting the
last resolved band: with a `tolerance` field it is the tolerance band, the
second-to-last the multiplier and the rest digits; otherwise the last band
is the multiplier, the rest digits, tolerance defaulting to 20%.  In
particular `["Brown","Black","Red","Gold"]` decodes to "1kΩ ±5%" and
`["Yellow","Violet","Orange"]` to "47kΩ ±20%". -/
theorem C3_band_role_assignment :
    (∀ (bands : List String) (lastB : ResistorColor), 3 ≤ bands.length →
      (∀ n ∈ bands, (lookupColor n).isSome) →
      (bands.filterMap lookupColor).getLast? = some lastB →
      calculateResistorValue bands =
        if lastB.tolerance.isSome then
          decodeRoles (bands.filterMap lookupColor).dropLast.dropLast
            (bands.filterMap lookupColor).dropLast.getLast? (some lastB)
        else
          decodeRoles (bands.filterMap lookupColor).dropLast (some lastB) none) ∧
    calculateResistorValue ["Brown", "Black", "Red", "Gold"] = some "1kΩ ±5%" ∧
    calculateResistorValue ["Yellow", "Violet", "Orange"] = some "47kΩ ±20%" :=
  ⟨fun bands lastB h3 hres hlast =>
      calculateResistorValue_eval bands _ lastB h3 rfl
        (by rw [lookup_resolved_length bands hres]; exact h3) hlast,
    calcRV_1k, calcRV_47k20⟩

/-- Witness for C3 at the concrete input `["Brown","Black","Red","Gold"]`
(whose last resolved band, Gold, carries a tolerance). -/
theorem C3_band_role_assignment_witness :
    calculateResistorValue ["Brown", "Black", "Red", "Gold"] =
      if rcGold.tolerance.isSome then
        decodeRoles ((["Brown", "Black", "Red", "Gold"].filterMap lookupColor)).dropLast.dropLast
          ((["Brown", "Black", "Red", "Gold"].filterMap lookupColor)).dropLast.getLast?
          (some rcGold)
      else
        decodeRoles ((["Brown", "Black", "Red", "Gold"].filterMap lookupColor)).dropLast
          (some rcGold) none :=
  C3_band_role_assignment.1 ["Brown", "Black", "Red", "Gold"] rcGold (by norm_num) (by decide)
    (by rfl)

/-- C7 counterexample: the dominant-color body filter is not idempotent.
On `["Red","Red","Brown","Brown","Black"]` the first pass removes the
dominant "Red" leaving `["Brown","Brown","Black"]`, in which "Brown" still
occurs twice, so the second pass removes it as well. -/
theorem C7_dominant_filter_not_idempotent :
    dominantFilter (dominantFilter ["Red", "Red", "Brown", "Brown", "Black"]) ≠
      dominantFilter ["Red", "Red", "Brown", "Brown", "Black"] := by decide

/-- C7 (amended): the dominant-color body filter is a no-op on sequences
without repeated names; hence a second application is a no-op whenever the
first pass left no repeated name (which the original claim wrongly asserted
of every once-filtered sequence). -/
theorem C7_dominant_filter_idempotent_on_nodup :
    ∀ seq : List String, (dominantFilter seq).Nodup →
      dominantFilter (dominantFilter seq) = dominantFilter seq :=
  fun _ h => dominantFilter_of_nodup _ h

/-- Witness for the amended C7 at `["Red","Red","Brown"]`, whose filtered
form `["Brown"]` has no repeated name. -/
theorem C7_dominant_filter_idempotent_on_nodup_witness :
    dominantFilter (dominantFilter ["Red", "Red", "Brown"]) =
      dominantFilter ["Red", "Red", "Brown"] :=
  C7_dominant_filter_idempotent_on_nodup ["Red", "Red", "Brown"] (by decide)

/-- C8: `calculateResistorValue` returns `null` exactly when fewer than 3
names are given, and returns the descriptive string "Not enough valid
bands" (not `null`, not a fault) when at least 3 names are given but fewer
than 3 resolve against the catalog. -/
theorem C8_error_paths :
    ∀ bands : List String,
      (calculateResistorValue bands = none ↔ bands.length < 3) ∧
      (3 ≤ bands.length → (bands.filterMap lookupColor).length < 3 →
        calculateResistorValue bands = some "Not enough valid bands") := by
  intro bands
  refine ⟨calcRV_none_iff bands, fun h3 h2 => ?_⟩
  rw [calculateResistorValue, if_neg (by omega), if_pos h2]

/-- Witness for C8: two names give `null`, three unresolvable names give
"Not enough valid bands". -/
theorem C8_error_paths_witness :
    calculateResistorValue ["a", "b"] = none ∧
    calculateResistorValue ["a", "b", "c"] = some "Not enough valid bands" :=
  ⟨(C8_error_paths ["a", "b"]).1.mpr (by norm_num),
   (C8_error_paths ["a", "b", "c"]).2 (by norm_num) (by decide)⟩

/-- C10 counterexample: the claim that the decoder never applies the
fractional Gold (×0.1) / Silver (×0.01) multipliers fails when the middle
band of a 3-band input is itself Gold: `["Red","Gold","Gold"]` decodes to
"0.2Ω ±5%", i.e. 2 × 0.1 Ω, applying Gold's fractional multiplier. -/
theorem C10_fractional_multiplier_applied :
    calculateResistorValue ["Red", "Gold", "Gold"] = some "0.2Ω ±5%" :=
  calcRV_02

/-- C10 (amended): for exactly 3 resolving names whose last carries a
tolerance field, the last name is consumed as the tolerance band and the
middle as the multiplier band, leaving one digit band; the *last* band's
(fractional) multiplier is never applied — though a Gold/Silver *middle*
band does contribute its fractional multiplier.  `["Red","Violet","Gold"]`
decodes to "20MΩ ±5%" (2 × 10⁷ Ω), not 27 × 0.1 Ω. -/
theorem C10_three_band_roles :
    (∀ (a b c : String) (A B C : ResistorColor),
      lookupColor a = some A → lookupColor b = some B → lookupColor c = some C →
      C.tolerance.isSome →
      calculateResistorValue [a, b, c] = decodeRoles [A] (some B) (some C)) ∧
    (∀ (digits : List ResistorColor) (m : Option ResistorColor) (t : ResistorColor),
      decodeRoles digits m (some t) = decodeRoles digits m (some { t with multiplier := none })) ∧
    calculateResistorValue ["Red", "Violet", "Gold"] = some "20MΩ ±5%" :=
  ⟨calcRV_three, decodeRoles_ignores_tolerance_multiplier, calcRV_20M⟩

/-- Witness for the amended C10 at `["Red","Violet","Gold"]`. -/
theorem C10_three_band_roles_witness :
    calculateResistorValue ["Red", "Violet", "Gold"] =
      decodeRoles [rcRed] (some rcViolet) (some rcGold) :=
  C10_three_band_roles.1 "Red" "Violet" "Gold" rcRed rcViolet rcGold (by rfl) (by rfl) (by rfl)
    (by rfl)


/-!
Analytic lemmas for the perceptual layer: strict monotonicity of the two
per-channel nonlinearities (including across their branch points), the
resulting injectivity of `rgbToLab` on nonnegative inputs, and the behavior
of the classifier's selection loop.
-/


theorem rpow_24_lt_rpow_24 {a b : ℝ} (ha : 0 ≤ a) (hab : a < b) :
    a ^ (2.4 : ℝ) < b ^ (2.4 : ℝ) :=
  Real.rpow_lt_rpow ha hab (by norm_num)

/-- The boundary inequality making `gammaExpand` strictly monotone across
its branch point: the power branch at the threshold exceeds the linear
branch there. -/
theorem gamma_boundary :
    (0.04045 : ℝ) / 12.92 < (((0.04045 : ℝ) + 0.055) / 1.055) ^ (2.4 : ℝ) := by
  have hx : ((0.04045 : ℝ) + 0.055) / 1.055 = 1909 / 21100 := by norm_num
  rw [hx]
  have hb : (0 : ℝ) ≤ 1909 / 21100 := by norm_num
  by_contra hle
  push_neg at hle
  have h5 : ((1909 / 21100 : ℝ) ^ (2.4 : ℝ)) ^ (5 : ℕ) ≤ ((0.04045 : ℝ) / 12.92) ^ (5 : ℕ) := by
    apply pow_le_pow_left₀ (Real.rpow_nonneg hb _) hle
  have hpow : ((1909 / 21100 : ℝ) ^ (2.4 : ℝ)) ^ (5 : ℕ) = (1909 / 21100 : ℝ) ^ (12 : ℕ) := by
    rw [← Real.rpow_natCast ((1909 / 21100 : ℝ) ^ (2.4 : ℝ)) 5, ← Real.rpow_mul hb]
    norm_num
  rw [hpow] at h5
  norm_num at h5

theorem gammaExpand_nonneg {u : ℝ} (hu : 0 ≤ u) : 0 ≤ gammaExpand u := by
  rw [gammaExpand]
  split
  · exact Real.rpow_nonneg (by positivity) _
  · positivity

theorem gammaExpand_strictMono {u v : ℝ} (hu : 0 ≤ u) (huv : u < v) :
    gammaExpand u < gammaExpand v := by
  rw [gammaExpand, gammaExpand]
  by_cases hv : v > 0.04045
  · rw [if_pos hv]
    by_cases hu4 : u > 0.04045
    · rw [if_pos hu4]
      exact rpow_24_lt_rpow_24 (by positivity) ((div_lt_div_iff_of_pos_right (by norm_num)).mpr (by linarith))
    · rw [if_neg hu4]
      push_neg at hu4
      calc u / 12.92 ≤ (0.04045 : ℝ) / 12.92 := (div_le_div_iff_of_pos_right (by norm_num)).mpr hu4
        _ < (((0.04045 : ℝ) + 0.055) / 1.055) ^ (2.4 : ℝ) := gamma_boundary
        _ ≤ ((v + 0.055) / 1.055) ^ (2.4 : ℝ) := by
            apply Real.rpow_le_rpow (by norm_num)
              ((div_le_div_iff_of_pos_right (by norm_num)).mpr (by linarith)) (by norm_num)
  · rw [if_neg hv]
    have hu4 : ¬ u > 0.04045 := by push_neg at hv ⊢; linarith
    rw [if_neg hu4]
    exact (div_lt_div_iff_of_pos_right (by norm_num)).mpr huv

theorem labF_boundary :
    7.787 * (0.008856 : ℝ) + 16 / 116 < (0.008856 : ℝ) ^ ((1 : ℝ) / 3) := by
  by_contra hle
  push_neg at hle
  have h3 : ((0.008856 : ℝ) ^ ((1 : ℝ) / 3)) ^ (3 : ℕ) ≤
      (7.787 * (0.008856 : ℝ) + 16 / 116) ^ (3 : ℕ) :=
    pow_le_pow_left₀ (Real.rpow_nonneg (by norm_num) _) hle 3
  have hpow : ((0.008856 : ℝ) ^ ((1 : ℝ) / 3)) ^ (3 : ℕ) = (0.008856 : ℝ) := by
    rw [← Real.rpow_natCast ((0.008856 : ℝ) ^ ((1 : ℝ) / 3)) 3, ← Real.rpow_mul (by norm_num)]
    norm_num
  rw [hpow] at h3
  norm_num at h3

theorem labF_strictMono {u v : ℝ} (hu : 0 ≤ u) (huv : u < v) : labF u < labF v := by
  rw [labF, labF]
  by_cases hv : v > 0.008856
  · rw [if_pos hv]
    by_cases hu8 : u > 0.008856
    · rw [if_pos hu8]
      exact Real.rpow_lt_rpow (by positivity) huv (by norm_num)
    · rw [if_neg hu8]
      push_neg at hu8
      calc 7.787 * u + 16 / 116 ≤ 7.787 * (0.008856 : ℝ) + 16 / 116 := by linarith
        _ < (0.008856 : ℝ) ^ ((1 : ℝ) / 3) := labF_boundary
        _ ≤ v ^ ((1 : ℝ) / 3) := Real.rpow_le_rpow (by norm_num) (by linarith) (by norm_num)
  · rw [if_neg hv]
    have hu8 : ¬ u > 0.008856 := by push_neg at hv ⊢; linarith
    rw [if_neg hu8]
    linarith

theorem labF_injOn {u v : ℝ} (hu : 0 ≤ u) (hv : 0 ≤ v) (h : labF u = labF v) : u = v := by
  rcases lt_trichotomy u v with hlt | heq | hgt
  · exact absurd h (ne_of_lt (labF_strictMono hu hlt))
  · exact heq
  · exact absurd h.symm (ne_of_lt (labF_strictMono hv hgt))

theorem gammaExpand_injOn {u v : ℝ} (hu : 0 ≤ u) (hv : 0 ≤ v) (h : gammaExpand u = gammaExpand v) :
    u = v := by
  rcases lt_trichotomy u v with hlt | heq | hgt
  · exact absurd h (ne_of_lt (gammaExpand_strictMono hu hlt))
  · exact heq
  · exact absurd h.symm (ne_of_lt (gammaExpand_strictMono hv hgt))

theorem rgbToY_nonneg (c : RGB) (hr : 0 ≤ c.r) (hg : 0 ≤ c.g) (hb : 0 ≤ c.b) :
    0 ≤ rgbToY c := by
  have h1 := gammaExpand_nonneg (div_nonneg hr (by norm_num : (0:ℝ) ≤ 255))
  have h2 := gammaExpand_nonneg (div_nonneg hg (by norm_num : (0:ℝ) ≤ 255))
  have h3 := gammaExpand_nonneg (div_nonneg hb (by norm_num : (0:ℝ) ≤ 255))
  rw [rgbToY]
  nlinarith

theorem rgbToX_nonneg (c : RGB) (hr : 0 ≤ c.r) (hg : 0 ≤ c.g) (hb : 0 ≤ c.b) :
    0 ≤ rgbToX c := by
  have h1 := gammaExpand_nonneg (div_nonneg hr (by norm_num : (0:ℝ) ≤ 255))
  have h2 := gammaExpand_nonneg (div_nonneg hg (by norm_num : (0:ℝ) ≤ 255))
  have h3 := gammaExpand_nonneg (div_nonneg hb (by norm_num : (0:ℝ) ≤ 255))
  rw [rgbToX]
  nlinarith

theorem rgbToZ_nonneg (c : RGB) (hr : 0 ≤ c.r) (hg : 0 ≤ c.g) (hb : 0 ≤ c.b) :
    0 ≤ rgbToZ c := by
  have h1 := gammaExpand_nonneg (div_nonneg hr (by norm_num : (0:ℝ) ≤ 255))
  have h2 := gammaExpand_nonneg (div_nonneg hg (by norm_num : (0:ℝ) ≤ 255))
  have h3 := gammaExpand_nonneg (div_nonneg hb (by norm_num : (0:ℝ) ≤ 255))
  rw [rgbToZ]
  nlinarith

theorem rgbToLab_injective {c1 c2 : RGB} (h1r : 0 ≤ c1.r) (h1g : 0 ≤ c1.g) (h1b : 0 ≤ c1.b)
    (h2r : 0 ≤ c2.r) (h2g : 0 ≤ c2.g) (h2b : 0 ≤ c2.b)
    (h : rgbToLab c1 = rgbToLab c2) : c1.r = c2.r ∧ c1.g = c2.g ∧ c1.b = c2.b := by
  have hYn1 := rgbToY_nonneg c1 h1r h1g h1b
  have hYn2 := rgbToY_nonneg c2 h2r h2g h2b
  have hXn1 := rgbToX_nonneg c1 h1r h1g h1b
  have hXn2 := rgbToX_nonneg c2 h2r h2g h2b
  have hZn1 := rgbToZ_nonneg c1 h1r h1g h1b
  have hZn2 := rgbToZ_nonneg c2 h2r h2g h2b
  have hLeq : (rgbToLab c1).l = (rgbToLab c2).l := by rw [h]
  have hAeq : (rgbToLab c1).a = (rgbToLab c2).a := by rw [h]
  have hBeq : (rgbToLab c1).b = (rgbToLab c2).b := by rw [h]
  simp only [rgbToLab] at hLeq hAeq hBeq
  have hfy : labF (rgbToY c1 / 100) = labF (rgbToY c2 / 100) := by linarith
  have hY : rgbToY c1 = rgbToY c2 := by
    have := labF_injOn (div_nonneg hYn1 (by norm_num)) (div_nonneg hYn2 (by norm_num)) hfy
    linarith
  have hfx : labF (rgbToX c1 / 95.047) = labF (rgbToX c2 / 95.047) := by
    rw [hfy] at hAeq
    linarith
  have hX : rgbToX c1 = rgbToX c2 := by
    have := labF_injOn (div_nonneg hXn1 (by norm_num)) (div_nonneg hXn2 (by norm_num)) hfx
    have h95 : (95.047 : ℝ) ≠ 0 := by norm_num
    field_simp at this
    linarith
  have hfz : labF (rgbToZ c1 / 108.883) = labF (rgbToZ c2 / 108.883) := by
    rw [hfy] at hBeq
    linarith
  have hZ : rgbToZ c1 = rgbToZ c2 := by
    have := labF_injOn (div_nonneg hZn1 (by norm_num)) (div_nonneg hZn2 (by norm_num)) hfz
    field_simp at this
    linarith
  simp only [rgbToX] at hX
  simp only [rgbToY] at hY
  simp only [rgbToZ] at hZ
  have hgr : gammaExpand (c1.r / 255) = gammaExpand (c2.r / 255) := by linarith
  have hgg : gammaExpand (c1.g / 255) = gammaExpand (c2.g / 255) := by linarith
  have hgb : gammaExpand (c1.b / 255) = gammaExpand (c2.b / 255) := by linarith
  have er := gammaExpand_injOn (div_nonneg h1r (by norm_num)) (div_nonneg h2r (by norm_num)) hgr
  have eg := gammaExpand_injOn (div_nonneg h1g (by norm_num)) (div_nonneg h2g (by norm_num)) hgg
  have eb := gammaExpand_injOn (div_nonneg h1b (by norm_num)) (div_nonneg h2b (by norm_num)) hgb
  refine ⟨by linarith, by linarith, by linarith⟩

theorem colorDistance_self (c : RGB) : colorDistance c c = 0 := by
  rw [colorDistance]
  simp [sub_self]

theorem colorDistance_nonneg (c1 c2 : RGB) : 0 ≤ colorDistance c1 c2 :=
  Real.sqrt_nonneg _

theorem colorDistance_pos {c1 c2 : RGB} (h1r : 0 ≤ c1.r) (h1g : 0 ≤ c1.g) (h1b : 0 ≤ c1.b)
    (h2r : 0 ≤ c2.r) (h2g : 0 ≤ c2.g) (h2b : 0 ≤ c2.b)
    (hne : ¬(c1.r = c2.r ∧ c1.g = c2.g ∧ c1.b = c2.b)) : 0 < colorDistance c1 c2 := by
  rw [colorDistance]
  apply Real.sqrt_pos.mpr
  have hlab : rgbToLab c1 ≠ rgbToLab c2 := fun he =>
    hne (rgbToLab_injective h1r h1g h1b h2r h2g h2b he)
  by_contra hle
  push_neg at hle
  have e1 : (rgbToLab c1).l = (rgbToLab c2).l := by nlinarith [sq_nonneg ((rgbToLab c1).l - (rgbToLab c2).l), sq_nonneg ((rgbToLab c1).a - (rgbToLab c2).a), sq_nonneg ((rgbToLab c1).b - (rgbToLab c2).b)]
  have e2 : (rgbToLab c1).a = (rgbToLab c2).a := by nlinarith [sq_nonneg ((rgbToLab c1).l - (rgbToLab c2).l), sq_nonneg ((rgbToLab c1).a - (rgbToLab c2).a), sq_nonneg ((rgbToLab c1).b - (rgbToLab c2).b)]
  have e3 : (rgbToLab c1).b = (rgbToLab c2).b := by nlinarith [sq_nonneg ((rgbToLab c1).l - (rgbToLab c2).l), sq_nonneg ((rgbToLab c1).a - (rgbToLab c2).a), sq_nonneg ((rgbToLab c1).b - (rgbToLab c2).b)]
  exact hlab (Lab.ext e1 e2 e3)

theorem biasedCatalogDist_nonneg (pixel : RGB) (pc hue : ℝ) (color : ResistorColor)
    (hpc : 0 ≤ pc) : 0 ≤ biasedCatalogDist pixel pc hue color := by
  have hd := colorDistance_nonneg pixel ⟨(color.r : ℝ), (color.g : ℝ), (color.b : ℝ)⟩
  have hf : (0:ℝ) ≤ 1 + pc / 50 := by linarith
  simp only [biasedCatalogDist]
  split_ifs <;> nlinarith [mul_nonneg hd hf]

theorem biasedCatalogDist_pos (pixel : RGB) (pc hue : ℝ) (color : ResistorColor)
    (hpc : 0 ≤ pc)
    (hd : 0 < colorDistance pixel ⟨(color.r : ℝ), (color.g : ℝ), (color.b : ℝ)⟩) :
    0 < biasedCatalogDist pixel pc hue color := by
  have hf : (0:ℝ) < 1 + pc / 50 := by linarith
  simp only [biasedCatalogDist]
  split_ifs <;> nlinarith [mul_pos hd hf]

theorem biasedCatalogDist_eq_zero (pixel : RGB) (pc hue : ℝ) (color : ResistorColor)
    (hd : colorDistance pixel ⟨(color.r : ℝ), (color.g : ℝ), (color.b : ℝ)⟩ = 0) :
    biasedCatalogDist pixel pc hue color = 0 := by
  simp only [biasedCatalogDist, hd]
  split_ifs <;> ring

theorem foldl_catStep_keep (pixel : RGB) (pc hue : ℝ) (l : List ResistorColor)
    (e : ResistorColor) (hpos : ∀ x ∈ l, 0 < biasedCatalogDist pixel pc hue x) :
    List.foldl (catStep pixel pc hue) (some 0, e) l = (some 0, e) := by
  induction l with
  | nil => rfl
  | cons c t ih =>
      rw [List.foldl_cons]
      have hc := hpos c (by simp)
      have hstep : catStep pixel pc hue (some 0, e) c = (some 0, e) := by
        simp only [catStep]
        rw [if_neg (not_le.mpr hc)]
      rw [hstep]
      exact ih (fun x hx => hpos x (by simp [hx]))

theorem foldl_catStep_min_nonneg (pixel : RGB) (pc hue : ℝ) (hpc : 0 ≤ pc)
    (l : List ResistorColor) :
    ∀ st : Option ℝ × ResistorColor, (∀ m, st.1 = some m → 0 ≤ m) →
      ∀ m, (List.foldl (catStep pixel pc hue) st l).1 = some m → 0 ≤ m := by
  induction l with
  | nil => intro st hst; exact hst
  | cons c t ih =>
      intro st hst
      rw [List.foldl_cons]
      apply ih
      obtain ⟨m1, c1⟩ := st
      cases m1 with
      | none =>
          intro m hm
          simp only [catStep] at hm
          rw [← Option.some_inj.mp hm]
          exact biasedCatalogDist_nonneg pixel pc hue c hpc
      | some m0 =>
          intro m hm
          simp only [catStep] at hm
          split_ifs at hm with hle
          · injection hm with hm1
            rw [← hm1]
            exact biasedCatalogDist_nonneg pixel pc hue c hpc
          · injection hm with hm1
            rw [← hm1]
            exact hst m0 rfl

theorem foldl_catStep_target (pixel : RGB) (pc hue : ℝ) (hpc : 0 ≤ pc)
    (init : Option ℝ × ResistorColor) (hinit : ∀ m, init.1 = some m → 0 ≤ m)
    (l₁ l₂ : List ResistorColor) (e : ResistorColor)
    (he : biasedCatalogDist pixel pc hue e = 0)
    (hpost : ∀ x ∈ l₂, 0 < biasedCatalogDist pixel pc hue x) :
    List.foldl (catStep pixel pc hue) init (l₁ ++ e :: l₂) = (some 0, e) := by
  rw [List.foldl_append, List.foldl_cons]
  have hmin := foldl_catStep_min_nonneg pixel pc hue hpc l₁ init hinit
  have hstep : ∀ st : Option ℝ × ResistorColor, (∀ m, st.1 = some m → 0 ≤ m) →
      catStep pixel pc hue st e = (some 0, e) := by
    rintro ⟨m1, c1⟩ hst
    cases m1 with
    | none =>
        simp only [catStep]
        rw [he]
    | some m0 =>
        have h0 : 0 ≤ m0 := hst m0 rfl
        simp only [catStep]
        rw [if_pos (by rw [he]; exact h0), he]
  rw [hstep _ hmin]
  exact foldl_catStep_keep pixel pc hue l₂ e hpost

theorem findClosestColor_of_catalog_split (pixel : RGB) (l₁ l₂ : List ResistorColor)
    (e : ResistorColor) (hsplit : RESISTOR_COLORS = l₁ ++ e :: l₂)
    (he : colorDistance pixel ⟨(e.r : ℝ), (e.g : ℝ), (e.b : ℝ)⟩ = 0)
    (hpost : ∀ x ∈ l₂, 0 < colorDistance pixel ⟨(x.r : ℝ), (x.g : ℝ), (x.b : ℝ)⟩) :
    findClosestColor pixel [] = canonicalizeColor e := by
  have hpc : 0 ≤ chromaOf (rgbToLab pixel) := Real.sqrt_nonneg _
  rw [findClosestColor]
  simp only [List.foldl_nil]
  rw [show RESISTOR_COLORS.foldl
        (catStep pixel (chromaOf (rgbToLab pixel)) (hueAngleOf (rgbToLab pixel)))
        (none, RESISTOR_COLORS.headI) = (some 0, e) from by
      rw [hsplit]
      exact foldl_catStep_target pixel _ _ hpc _ (by intro m hm; exact absurd hm (by simp))
        l₁ l₂ e (biasedCatalogDist_eq_zero _ _ _ _ he)
        (fun x hx => biasedCatalogDist_pos _ _ _ _ hpc (hpost x hx))]

theorem findClosest_goldMetallic : findClosestColor ⟨212, 175, 55⟩ [] = rcGold := by
  rw [findClosestColor_of_catalog_split ⟨212, 175, 55⟩
      [rcBlack, rcBrown, rcRed, rcOrange, rcYellow, rcGreen, rcBlue, rcViolet, rcGray, rcWhite,
       rcGold, rcGoldLight]
      [rcGoldDark, rcGoldOchre, rcSilver, rcBeige, rcTan, rcSandy, rcCream, rcKhaki, rcLightBlue,
       rcVioletDark]
      rcGoldMetallic
      (by rfl)
      (by rw [show ((⟨(rcGoldMetallic.r : ℝ), (rcGoldMetallic.g : ℝ), (rcGoldMetallic.b : ℝ)⟩ : RGB))
            = ⟨212, 175, 55⟩ from by norm_num [RGB.mk.injEq, rcGoldMetallic]]
          exact colorDistance_self _)
      (by intro x hx
          fin_cases hx <;>
          · apply colorDistance_pos <;>
              norm_num [rcGoldDark, rcGoldOchre, rcSilver, rcBeige, rcTan, rcSandy, rcCream,
                rcKhaki, rcLightBlue, rcVioletDark])]
  rfl

theorem findClosest_Gold : findClosestColor ⟨255, 215, 0⟩ [] = rcGold := by
  rw [findClosestColor_of_catalog_split ⟨255, 215, 0⟩
      [rcBlack, rcBrown, rcRed, rcOrange, rcYellow, rcGreen, rcBlue, rcViolet, rcGray, rcWhite]
      [rcGoldLight, rcGoldMetallic, rcGoldDark, rcGoldOchre, rcSilver, rcBeige, rcTan, rcSandy, rcCream, rcKhaki, rcLightBlue, rcVioletDark]
      rcGold
      (by rfl)
      (by rw [show ((⟨(rcGold.r : ℝ), (rcGold.g : ℝ), (rcGold.b : ℝ)⟩ : RGB))
            = ⟨255, 215, 0⟩ from by norm_num [RGB.mk.injEq, rcGold]]
          exact colorDistance_self _)
      (by intro x hx
          fin_cases hx <;>
          · apply colorDistance_pos <;>
              norm_num [rcGoldLight, rcGoldMetallic, rcGoldDark, rcGoldOchre, rcSilver, rcBeige, rcTan, rcSandy, rcCream, rcKhaki, rcLightBlue, rcVioletDark])]
  rfl

theorem findClosest_GoldLight : findClosestColor ⟨255, 220, 100⟩ [] = rcGold := by
  rw [findClosestColor_of_catalog_split ⟨255, 220, 100⟩
      [rcBlack, rcBrown, rcRed, rcOrange, rcYellow, rcGreen, rcBlue, rcViolet, rcGray, rcWhite, rcGold]
      [rcGoldMetallic, rcGoldDark, rcGoldOchre, rcSilver, rcBeige, rcTan, rcSandy, rcCream, rcKhaki, rcLightBlue, rcVioletDark]
      rcGoldLight
      (by rfl)
      (by rw [show ((⟨(rcGoldLight.r : ℝ), (rcGoldLight.g : ℝ), (rcGoldLight.b : ℝ)⟩ : RGB))
            = ⟨255, 220, 100⟩ from by norm_num [RGB.mk.injEq, rcGoldLight]]
          exact colorDistance_self _)
      (by intro x hx
          fin_cases hx <;>
          · apply colorDistance_pos <;>
              norm_num [rcGoldMetallic, rcGoldDark, rcGoldOchre, rcSilver, rcBeige, rcTan, rcSandy, rcCream, rcKhaki, rcLightBlue, rcVioletDark])]
  rfl

theorem findClosest_GoldDark : findClosestColor ⟨184, 134, 11⟩ [] = rcGold := by
  rw [findClosestColor_of_catalog_split ⟨184, 134, 11⟩
      [rcBlack, rcBrown, rcRed, rcOrange, rcYellow, rcGreen, rcBlue, rcViolet, rcGray, rcWhite, rcGold, rcGoldLight, rcGoldMetallic]
      [rcGoldOchre, rcSilver, rcBeige, rcTan, rcSandy, rcCream, rcKhaki, rcLightBlue, rcVioletDark]
      rcGoldDark
      (by rfl)
      (by rw [show ((⟨(rcGoldDark.r : ℝ), (rcGoldDark.g : ℝ), (rcGoldDark.b : ℝ)⟩ : RGB))
            = ⟨184, 134, 11⟩ from by norm_num [RGB.mk.injEq, rcGoldDark]]
          exact colorDistance_self _)
      (by intro x hx
          fin_cases hx <;>
          · apply colorDistance_pos <;>
              norm_num [rcGoldOchre, rcSilver, rcBeige, rcTan, rcSandy, rcCream, rcKhaki, rcLightBlue, rcVioletDark])]
  rfl

theorem findClosest_GoldOchre : findClosestColor ⟨204, 119, 34⟩ [] = rcGold := by
  rw [findClosestColor_of_catalog_split ⟨204, 119, 34⟩
      [rcBlack, rcBrown, rcRed, rcOrange, rcYellow, rcGreen, rcBlue, rcViolet, rcGray, rcWhite, rcGold, rcGoldLight, rcGoldMetallic, rcGoldDark]
      [rcSilver, rcBeige, rcTan, rcSandy, rcCream, rcKhaki, rcLightBlue, rcVioletDark]
      rcGoldOchre
      (by rfl)
      (by rw [show ((⟨(rcGoldOchre.r : ℝ), (rcGoldOchre.g : ℝ), (rcGoldOchre.b : ℝ)⟩ : RGB))
            = ⟨204, 119, 34⟩ from by norm_num [RGB.mk.injEq, rcGoldOchre]]
          exact colorDistance_self _)
      (by intro x hx
          fin_cases hx <;>
          · apply colorDistance_pos <;>
              norm_num [rcSilver, rcBeige, rcTan, rcSandy, rcCream, rcKhaki, rcLightBlue, rcVioletDark])]
  rfl

theorem findClosest_VioletDark : findClosestColor ⟨100, 50, 150⟩ [] = rcViolet := by
  rw [findClosestColor_of_catalog_split ⟨100, 50, 150⟩
      [rcBlack, rcBrown, rcRed, rcOrange, rcYellow, rcGreen, rcBlue, rcViolet, rcGray, rcWhite, rcGold, rcGoldLight, rcGoldMetallic, rcGoldDark, rcGoldOchre, rcSilver, rcBeige, rcTan, rcSandy, rcCream, rcKhaki, rcLightBlue]
      []
      rcVioletDark
      (by rfl)
      (by rw [show ((⟨(rcVioletDark.r : ℝ), (rcVioletDark.g : ℝ), (rcVioletDark.b : ℝ)⟩ : RGB))
            = ⟨100, 50, 150⟩ from by norm_num [RGB.mk.injEq, rcVioletDark]]
          exact colorDistance_self _)
      (by intro x hx
          exact absurd hx (List.not_mem_nil x))]
  rfl

theorem foldl_catStep_lastArgmin (pixel : RGB) (pc hue : ℝ) (l : List ResistorColor) :
    ∀ e : ResistorColor,
      List.foldl (catStep pixel pc hue) (some (biasedCatalogDist pixel pc hue e), e) l =
        (some (biasedCatalogDist pixel pc hue (lastArgminBias pixel pc hue e l)),
          lastArgminBias pixel pc hue e l) := by
  induction l with
  | nil => intro e; rfl
  | cons c t ih =>
      intro e
      rw [List.foldl_cons]
      by_cases h : biasedCatalogDist pixel pc hue c ≤ biasedCatalogDist pixel pc hue e
      · rw [show catStep pixel pc hue (some (biasedCatalogDist pixel pc hue e), e) c =
              (some (biasedCatalogDist pixel pc hue c), c) from by
            simp only [catStep]
            rw [if_pos h]]
        rw [ih c]
        rw [show lastArgminBias pixel pc hue e (c :: t) = lastArgminBias pixel pc hue c t from by
          simp only [lastArgminBias, List.foldl_cons]
          rw [if_pos h]]
      · rw [show catStep pixel pc hue (some (biasedCatalogDist pixel pc hue e), e) c =
              (some (biasedCatalogDist pixel pc hue e), e) from by
            simp only [catStep]
            rw [if_neg h]]
        rw [ih e]
        rw [show lastArgminBias pixel pc hue e (c :: t) = lastArgminBias pixel pc hue e t from by
          simp only [lastArgminBias, List.foldl_cons]
          rw [if_neg h]]

theorem findClosestColor_empty_lastArgmin (pixel : RGB) :
    findClosestColor pixel [] =
      canonicalizeColor
        (lastArgminBias pixel (chromaOf (rgbToLab pixel)) (hueAngleOf (rgbToLab pixel))
          rcBlack (RESISTOR_COLORS.tail)) := by
  rw [findClosestColor]
  simp only [List.foldl_nil]
  rw [show RESISTOR_COLORS = rcBlack :: RESISTOR_COLORS.tail from by rfl]
  rw [List.foldl_cons]
  rw [show catStep pixel (chromaOf (rgbToLab pixel)) (hueAngleOf (rgbToLab pixel))
        (none, (rcBlack :: RESISTOR_COLORS.tail).headI) rcBlack =
      (some (biasedCatalogDist pixel (chromaOf (rgbToLab pixel)) (hueAngleOf (rgbToLab pixel))
        rcBlack), rcBlack) from rfl]
  rw [foldl_catStep_lastArgmin]
  rfl

theorem rgbToLab_black : rgbToLab ⟨0, 0, 0⟩ = ⟨0, 0, 0⟩ := by
  have hg : gammaExpand ((0 : ℝ) / 255) = 0 := by
    rw [gammaExpand, if_neg (by norm_num)]
    norm_num
  have hx : rgbToX ⟨0, 0, 0⟩ = 0 := by rw [rgbToX]; simp only [hg]; ring
  have hy : rgbToY ⟨0, 0, 0⟩ = 0 := by rw [rgbToY]; simp only [hg]; ring
  have hz : rgbToZ ⟨0, 0, 0⟩ = 0 := by rw [rgbToZ]; simp only [hg]; ring
  rw [rgbToLab, hx, hy, hz]
  have hf : labF ((0 : ℝ) / 100) = 16 / 116 := by
    rw [show (0 : ℝ) / 100 = 0 by norm_num, labF, if_neg (by norm_num)]
    norm_num
  have hf2 : labF ((0 : ℝ) / 95.047) = 16 / 116 := by
    rw [show (0 : ℝ) / 95.047 = 0 by norm_num, labF, if_neg (by norm_num)]
    norm_num
  have hf3 : labF ((0 : ℝ) / 108.883) = 16 / 116 := by
    rw [show (0 : ℝ) / 108.883 = 0 by norm_num, labF, if_neg (by norm_num)]
    norm_num
  rw [hf, hf2, hf3]
  simp only [Lab.mk.injEq]
  norm_num

theorem biased_black_at_black :
    biasedCatalogDist ⟨0, 0, 0⟩ (chromaOf (rgbToLab ⟨0, 0, 0⟩)) (hueAngleOf (rgbToLab ⟨0, 0, 0⟩))
      rcBlack = 0 := by
  apply biasedCatalogDist_eq_zero
  rw [show ((⟨(rcBlack.r : ℝ), (rcBlack.g : ℝ), (rcBlack.b : ℝ)⟩ : RGB)) = ⟨0, 0, 0⟩ from by
    norm_num [RGB.mk.injEq, rcBlack]]
  exact colorDistance_self _

theorem catStep_tie_replaces :
    catStep ⟨0, 0, 0⟩ (chromaOf (rgbToLab ⟨0, 0, 0⟩)) (hueAngleOf (rgbToLab ⟨0, 0, 0⟩))
      (some 0, rcWhite) rcBlack = (some 0, rcBlack) ∧ rcBlack ≠ rcWhite := by
  constructor
  · simp only [catStep, biased_black_at_black]
    rw [if_pos (le_refl 0)]
  · intro h
    have := congrArg ResistorColor.name h
    simp [rcBlack, rcWhite] at this

/-- C5: for every catalog entry whose name starts with "Gold", and for
"Violet_Dark", classifying that entry's exact RGB (empty custom-color list)
returns the single canonical entry — "Gold" for the Gold family, "Violet"
for the dark Violet variant — never a variant name. -/
theorem C5_catalog_canonicalization :
    findClosestColor ⟨255, 215, 0⟩ [] = rcGold ∧
    findClosestColor ⟨255, 220, 100⟩ [] = rcGold ∧
    findClosestColor ⟨212, 175, 55⟩ [] = rcGold ∧
    findClosestColor ⟨184, 134, 11⟩ [] = rcGold ∧
    findClosestColor ⟨204, 119, 34⟩ [] = rcGold ∧
    findClosestColor ⟨100, 50, 150⟩ [] = rcViolet :=
  ⟨findClosest_Gold, findClosest_GoldLight, findClosest_goldMetallic, findClosest_GoldDark,
    findClosest_GoldOchre, findClosest_VioletDark⟩

/-- C6 counterexample: the claim says a later catalog entry replaces the
running best only when its biased distance is STRICTLY lower.  The loop
compares with `<=`: at pixel (0,0,0) the entry "Black" has biased distance
0, and the update step applied to a running best with minimum 0 replaces it
with "Black" although the distances tie. -/
theorem C6_tie_goes_to_later_entry :
    biasedCatalogDist ⟨0, 0, 0⟩ (chromaOf (rgbToLab ⟨0, 0, 0⟩)) (hueAngleOf (rgbToLab ⟨0, 0, 0⟩))
        rcBlack = 0 ∧
    catStep ⟨0, 0, 0⟩ (chromaOf (rgbToLab ⟨0, 0, 0⟩)) (hueAngleOf (rgbToLab ⟨0, 0, 0⟩))
        (some 0, rcWhite) rcBlack = (some 0, rcBlack) ∧
    rcBlack ≠ rcWhite :=
  ⟨biased_black_at_black, catStep_tie_replaces.1, catStep_tie_replaces.2⟩

/-- C6 (amended): ties go to the LATER entry.  With an empty custom-color
list the classifier returns the canonicalized LAST catalog entry attaining
the minimal bias-adjusted distance (`lastArgminBias` keeps the later entry
exactly when its biased distance is lower or equal). -/
theorem C6_keeps_last_minimizer :
    ∀ pixel : RGB,
      findClosestColor pixel [] =
        canonicalizeColor
          (lastArgminBias pixel (chromaOf (rgbToLab pixel)) (hueAngleOf (rgbToLab pixel))
            rcBlack (RESISTOR_COLORS.tail)) :=
  findClosestColor_empty_lastArgmin


/-!
Certified numeric bounds for the metallic-gold pixel (212,175,55): real
powers with rational exponents are compared through integral powers
(`a^(12/5) ≤ q ↔ a^12 ≤ q^5`, `t^(1/3) ≤ q ↔ t ≤ q^3`).
-/


theorem rpow24_pow5 (x : ℝ) (hx : 0 ≤ x) : (x ^ (2.4 : ℝ)) ^ (5 : ℕ) = x ^ (12 : ℕ) := by
  rw [← Real.rpow_natCast (x ^ (2.4 : ℝ)) 5, ← Real.rpow_mul hx,
    show (2.4 : ℝ) * ((5 : ℕ) : ℝ) = ((12 : ℕ) : ℝ) by norm_num, Real.rpow_natCast]

theorem rpow24_ge (x q : ℝ) (hx : 0 ≤ x) (hq : 0 ≤ q) (h : q ^ (5 : ℕ) ≤ x ^ (12 : ℕ)) :
    q ≤ x ^ (2.4 : ℝ) := by
  by_contra hlt
  push_neg at hlt
  have h5 : (x ^ (2.4 : ℝ)) ^ (5 : ℕ) < q ^ (5 : ℕ) :=
    pow_lt_pow_left₀ hlt (Real.rpow_nonneg hx _) (by norm_num)
  rw [rpow24_pow5 x hx] at h5
  linarith

theorem rpow24_le (x q : ℝ) (hx : 0 ≤ x) (hq : 0 ≤ q) (h : x ^ (12 : ℕ) ≤ q ^ (5 : ℕ)) :
    x ^ (2.4 : ℝ) ≤ q := by
  by_contra hlt
  push_neg at hlt
  have h5 : q ^ (5 : ℕ) < (x ^ (2.4 : ℝ)) ^ (5 : ℕ) :=
    pow_lt_pow_left₀ hlt hq (by norm_num)
  rw [rpow24_pow5 x hx] at h5
  linarith

theorem rpow13_pow3 (t : ℝ) (ht : 0 ≤ t) : (t ^ ((1 : ℝ) / 3)) ^ (3 : ℕ) = t := by
  rw [← Real.rpow_natCast (t ^ ((1 : ℝ) / 3)) 3, ← Real.rpow_mul ht,
    show (1 : ℝ) / 3 * ((3 : ℕ) : ℝ) = ((1 : ℕ) : ℝ) by norm_num, Real.rpow_natCast, pow_one]

theorem rpow13_ge (t q : ℝ) (ht : 0 ≤ t) (hq : 0 ≤ q) (h : q ^ (3 : ℕ) ≤ t) :
    q ≤ t ^ ((1 : ℝ) / 3) := by
  by_contra hlt
  push_neg at hlt
  have h3 : (t ^ ((1 : ℝ) / 3)) ^ (3 : ℕ) < q ^ (3 : ℕ) :=
    pow_lt_pow_left₀ hlt (Real.rpow_nonneg ht _) (by norm_num)
  rw [rpow13_pow3 t ht] at h3
  linarith

theorem rpow13_le (t q : ℝ) (ht : 0 ≤ t) (hq : 0 ≤ q) (h : t ≤ q ^ (3 : ℕ)) :
    t ^ ((1 : ℝ) / 3) ≤ q := by
  by_contra hlt
  push_neg at hlt
  have h3 : q ^ (3 : ℕ) < (t ^ ((1 : ℝ) / 3)) ^ (3 : ℕ) :=
    pow_lt_pow_left₀ hlt hq (by norm_num)
  rw [rpow13_pow3 t ht] at h3
  linarith

set_option maxHeartbeats 2000000 in
/-- Certified Lab bounds for the metallic-gold pixel (212,175,55): its
blue-yellow component exceeds 30 and its green-red component lies strictly
between 0 and 3. -/
theorem goldMetallic_lab_bounds :
    30 < (rgbToLab ⟨212, 175, 55⟩).b ∧
    0 < (rgbToLab ⟨212, 175, 55⟩).a ∧ (rgbToLab ⟨212, 175, 55⟩).a < 3 := by
  have hgr_eq : gammaExpand ((212 : ℝ) / 255) =
      (((212 : ℝ) / 255 + 0.055) / 1.055) ^ (2.4 : ℝ) := by
    rw [gammaExpand, if_pos (by norm_num)]
  have hgg_eq : gammaExpand ((175 : ℝ) / 255) =
      (((175 : ℝ) / 255 + 0.055) / 1.055) ^ (2.4 : ℝ) := by
    rw [gammaExpand, if_pos (by norm_num)]
  have hgb_eq : gammaExpand ((55 : ℝ) / 255) =
      (((55 : ℝ) / 255 + 0.055) / 1.055) ^ (2.4 : ℝ) := by
    rw [gammaExpand, if_pos (by norm_num)]
  have hgrL : (0.6583743 : ℝ) ≤ gammaExpand ((212 : ℝ) / 255) := by
    rw [hgr_eq]; exact rpow24_ge _ _ (by norm_num) (by norm_num) (by norm_num)
  have hgrH : gammaExpand ((212 : ℝ) / 255) ≤ 0.6583753 := by
    rw [hgr_eq]; exact rpow24_le _ _ (by norm_num) (by norm_num) (by norm_num)
  have hggL : (0.4286899 : ℝ) ≤ gammaExpand ((175 : ℝ) / 255) := by
    rw [hgg_eq]; exact rpow24_ge _ _ (by norm_num) (by norm_num) (by norm_num)
  have hggH : gammaExpand ((175 : ℝ) / 255) ≤ 0.4286909 := by
    rw [hgg_eq]; exact rpow24_le _ _ (by norm_num) (by norm_num) (by norm_num)
  have hgbL : (0.0382038 : ℝ) ≤ gammaExpand ((55 : ℝ) / 255) := by
    rw [hgb_eq]; exact rpow24_ge _ _ (by norm_num) (by norm_num) (by norm_num)
  have hgbH : gammaExpand ((55 : ℝ) / 255) ≤ 0.0382048 := by
    rw [hgb_eq]; exact rpow24_le _ _ (by norm_num) (by norm_num) (by norm_num)
  have hXL : (43.173335434441 : ℝ) ≤ rgbToX ⟨212, 175, 55⟩ := by
    simp only [rgbToX]; linarith
  have hXH : rgbToX ⟨212, 175, 55⟩ ≤ 43.173430481441 := by
    simp only [rgbToX]; linarith
  have hYL : (44.935425603425 : ℝ) ≤ rgbToY ⟨212, 175, 55⟩ := by
    simp only [rgbToY]; linarith
  have hYH : rgbToY ⟨212, 175, 55⟩ ≤ 44.935525603435 := by
    simp only [rgbToY]; linarith
  have hZL : (10.013057721515 : ℝ) ≤ rgbToZ ⟨212, 175, 55⟩ := by
    simp only [rgbToZ]; linarith
  have hZH : rgbToZ ⟨212, 175, 55⟩ ≤ 10.013166604515 := by
    simp only [rgbToZ]; linarith
  have hfx_eq : labF (rgbToX ⟨212, 175, 55⟩ / 95.047) =
      (rgbToX ⟨212, 175, 55⟩ / 95.047) ^ ((1 : ℝ) / 3) := by
    rw [labF, if_pos (by rw [gt_iff_lt, lt_div_iff (by norm_num)]; linarith)]
  have hfy_eq : labF (rgbToY ⟨212, 175, 55⟩ / 100) =
      (rgbToY ⟨212, 175, 55⟩ / 100) ^ ((1 : ℝ) / 3) := by
    rw [labF, if_pos (by rw [gt_iff_lt, lt_div_iff (by norm_num)]; linarith)]
  have hfz_eq : labF (rgbToZ ⟨212, 175, 55⟩ / 108.883) =
      (rgbToZ ⟨212, 175, 55⟩ / 108.883) ^ ((1 : ℝ) / 3) := by
    rw [labF, if_pos (by rw [gt_iff_lt, lt_div_iff (by norm_num)]; linarith)]
  have hfxL : (0.7687035 : ℝ) ≤ labF (rgbToX ⟨212, 175, 55⟩ / 95.047) := by
    rw [hfx_eq]
    apply rpow13_ge _ _ (div_nonneg (by linarith) (by norm_num)) (by norm_num)
    rw [le_div_iff (by norm_num)]
    nlinarith
  have hfxH : labF (rgbToX ⟨212, 175, 55⟩ / 95.047) ≤ 0.7687048 := by
    rw [hfx_eq]
    apply rpow13_le _ _ (div_nonneg (by linarith) (by norm_num)) (by norm_num)
    rw [div_le_iff (by norm_num)]
    nlinarith
  have hfyL : (0.7659424 : ℝ) ≤ labF (rgbToY ⟨212, 175, 55⟩ / 100) := by
    rw [hfy_eq]
    apply rpow13_ge _ _ (div_nonneg (by linarith) (by norm_num)) (by norm_num)
    rw [le_div_iff (by norm_num)]
    nlinarith
  have hfyH : labF (rgbToY ⟨212, 175, 55⟩ / 100) ≤ 0.7659437 := by
    rw [hfy_eq]
    apply rpow13_le _ _ (div_nonneg (by linarith) (by norm_num)) (by norm_num)
    rw [div_le_iff (by norm_num)]
    nlinarith
  have hfzH : labF (rgbToZ ⟨212, 175, 55⟩ / 108.883) ≤ 0.4513750 := by
    rw [hfz_eq]
    apply rpow13_le _ _ (div_nonneg (by linarith) (by norm_num)) (by norm_num)
    rw [div_le_iff (by norm_num)]
    nlinarith
  refine ⟨?_, ?_, ?_⟩ <;> simp only [rgbToLab] <;> linarith

theorem goldMetallic_chroma_gt : 30 < chromaOf (rgbToLab ⟨212, 175, 55⟩) := by
  obtain ⟨hb, ha_pos, ha_lt⟩ := goldMetallic_lab_bounds
  rw [chromaOf]
  have h1 : ((rgbToLab ⟨212, 175, 55⟩).b) ^ 2 ≤
      ((rgbToLab ⟨212, 175, 55⟩).a) ^ 2 + ((rgbToLab ⟨212, 175, 55⟩).b) ^ 2 := by
    nlinarith [sq_nonneg ((rgbToLab ⟨212, 175, 55⟩).a)]
  calc (30 : ℝ) < (rgbToLab ⟨212, 175, 55⟩).b := hb
    _ = Real.sqrt (((rgbToLab ⟨212, 175, 55⟩).b) ^ 2) :=
        (Real.sqrt_sq (by linarith)).symm
    _ ≤ Real.sqrt (((rgbToLab ⟨212, 175, 55⟩).a) ^ 2 + ((rgbToLab ⟨212, 175, 55⟩).b) ^ 2) :=
        Real.sqrt_le_sqrt h1

theorem goldMetallic_hue_lt : hueAngleOf (rgbToLab ⟨212, 175, 55⟩) < 100 := by
  obtain ⟨hb, ha_pos, ha_lt⟩ := goldMetallic_lab_bounds
  rw [hueAngleOf, jsAtan2, if_pos ha_pos]
  have hpi : (0 : ℝ) < Real.pi := Real.pi_pos
  have harct := Real.arctan_lt_pi_div_two
    ((rgbToLab ⟨212, 175, 55⟩).b / (rgbToLab ⟨212, 175, 55⟩).a)
  have hmul : Real.arctan ((rgbToLab ⟨212, 175, 55⟩).b / (rgbToLab ⟨212, 175, 55⟩).a) *
      (180 / Real.pi) < (Real.pi / 2) * (180 / Real.pi) :=
    mul_lt_mul_of_pos_right harct (by positivity)
  have heq : (Real.pi / 2) * (180 / Real.pi) = 90 := by
    field_simp
    ring
  linarith

theorem goldMetallic_hue_gt : 60 < hueAngleOf (rgbToLab ⟨212, 175, 55⟩) := by
  obtain ⟨hb, ha_pos, ha_lt⟩ := goldMetallic_lab_bounds
  rw [hueAngleOf, jsAtan2, if_pos ha_pos]
  have hpi : (0 : ℝ) < Real.pi := Real.pi_pos
  have hsqrt3 : Real.sqrt 3 < 1.8 := by
    have h := Real.sqrt_lt_sqrt (by norm_num : (0 : ℝ) ≤ 3) (by norm_num : (3 : ℝ) < 3.24)
    rw [show (3.24 : ℝ) = 1.8 ^ 2 by norm_num, Real.sqrt_sq (by norm_num)] at h
    exact h
  have hba : Real.sqrt 3 < (rgbToLab ⟨212, 175, 55⟩).b / (rgbToLab ⟨212, 175, 55⟩).a := by
    rw [lt_div_iff ha_pos]
    nlinarith [Real.sqrt_nonneg (3 : ℝ)]
  have harc : Real.pi / 3 < Real.arctan ((rgbToLab ⟨212, 175, 55⟩).b /
      (rgbToLab ⟨212, 175, 55⟩).a) := by
    calc Real.pi / 3 = Real.arctan (Real.tan (Real.pi / 3)) :=
          (Real.arctan_tan (by linarith) (by linarith)).symm
      _ = Real.arctan (Real.sqrt 3) := by rw [Real.tan_pi_div_three]
      _ < _ := Real.arctan_strictMono hba
  have hmul : (Real.pi / 3) * (180 / Real.pi) <
      Real.arctan ((rgbToLab ⟨212, 175, 55⟩).b / (rgbToLab ⟨212, 175, 55⟩).a) *
        (180 / Real.pi) :=
    mul_lt_mul_of_pos_right harc (by positivity)
  have heq : (Real.pi / 3) * (180 / Real.pi) = 60 := by
    field_simp
    ring
  linarith


/-- C4: the metallic-gold pixel (212,175,55) satisfies the gold-likeness
gate of the classifier — its Lab chroma exceeds 30 and its hue angle lies
strictly between 60° and 100° (so every Gold-family catalog distance is
discounted by 0.55 rather than 0.75) — and `findClosestColor` on it with an
empty custom-color list returns the canonical "Gold" catalog entry. -/
theorem C4_metallic_gold_pixel :
    30 < chromaOf (rgbToLab ⟨212, 175, 55⟩) ∧
    60 < hueAngleOf (rgbToLab ⟨212, 175, 55⟩) ∧
    hueAngleOf (rgbToLab ⟨212, 175, 55⟩) < 100 ∧
    findClosestColor ⟨212, 175, 55⟩ [] = rcGold :=
  ⟨goldMetallic_chroma_gt, goldMetallic_hue_gt, goldMetallic_hue_lt, findClosest_goldMetallic⟩

/-- The segmentation fold preserves: every emitted segment has start ≤ end, and successive segments are separated (end < next start), given consecutive-x input pixels. -/
theorem segBuild_invariant (thr : ℝ) (rest : List AvgPx) :
    ∀ (prev : AvgPx) (segs : List Segment) (cur : Segment),
      (∀ s ∈ segs ++ [cur], s.start_x ≤ s.end_x) →
      List.Chain' (fun s1 s2 => s1.end_x < s2.start_x) (segs ++ [cur]) →
      cur.end_x = prev.x →
      List.Chain' (fun p q => q.x = p.x + 1) (prev :: rest) →
      (∀ s ∈ segBuild thr segs cur prev rest, s.start_x ≤ s.end_x) ∧
      List.Chain' (fun s1 s2 => s1.end_x < s2.start_x) (segBuild thr segs cur prev rest) := by
  induction rest with
  | nil =>
      intro prev segs cur h1 h2 _ _
      rw [segBuild]
      exact ⟨h1, h2⟩
  | cons c rest' ih =>
      intro prev segs cur h1 h2 h3 h4
      have hcx : c.x = prev.x + 1 := (List.chain'_cons.mp h4).1
      have h4' : List.Chain' (fun p q => q.x = p.x + 1) (c :: rest') := (List.chain'_cons.mp h4).2
      rw [segBuild]
      split
      · apply ih c (segs ++ [cur]) ⟨c.x, c.x, [c]⟩
        · intro s hs
          rcases List.mem_append.mp hs with hs' | hs'
          · exact h1 s hs'
          · rw [List.mem_singleton.mp hs']
        · rw [List.chain'_append]
          refine ⟨h2, List.chain'_singleton _, ?_⟩
          intro x hx y hy
          rw [List.getLast?_concat] at hx
          simp only [List.head?_cons, Option.mem_def, Option.some_inj] at hx hy
          rw [← hx, ← hy]
          show cur.end_x < c.x
          omega
        · rfl
        · exact h4'
      · apply ih c segs ⟨cur.start_x, c.x, cur.pixels ++ [c]⟩
        · intro s hs
          rcases List.mem_append.mp hs with hs' | hs'
          · exact h1 s (List.mem_append.mpr (Or.inl hs'))
          · rw [List.mem_singleton.mp hs']
            show cur.start_x ≤ c.x
            have := h1 cur (List.mem_append.mpr (Or.inr (List.mem_singleton.mpr rfl)))
            omega
        · rw [List.chain'_append] at h2 ⊢
          refine ⟨h2.1, List.chain'_singleton _, ?_⟩
          intro x hx y hy
          simp only [List.head?_cons, Option.mem_def, Option.some_inj] at hy
          have := h2.2.2 x hx cur (by simp)
          rw [← hy]
          show x.end_x < cur.start_x
          exact this
        · rfl
        · exact h4'

/-- On a consecutive-x averaged line, `segmentsOf` yields well-formed segments in strictly separated order. -/
theorem segmentsOf_wf_ordered (thr : ℝ) (line : List AvgPx)
    (hline : List.Chain' (fun p q => q.x = p.x + 1) line) :
    (∀ s ∈ segmentsOf thr line, s.start_x ≤ s.end_x) ∧
    List.Chain' (fun s1 s2 => s1.end_x < s2.start_x) (segmentsOf thr line) := by
  cases line with
  | nil =>
      constructor
      · intro s hs
        simp [segmentsOf] at hs
      · simp [segmentsOf]
  | cons a rest =>
      rw [segmentsOf]
      exact segBuild_invariant thr rest a [] ⟨a.x, a.x, [a]⟩
        (by
          intro s hs
          simp only [List.nil_append, List.mem_singleton] at hs
          rw [hs])
        (by
          simp only [List.nil_append]
          exact List.chain'_singleton _)
        rfl hline

/-- The averaged column at index x carries x as its coordinate. -/
theorem averagedCol_x (pixels : List RGB) (width height x : ℕ) :
    (averagedCol pixels width height x).x = x := by
  rw [averagedCol]
  split <;> rfl

/-- The averaged scan line has consecutive x coordinates. -/
theorem averagedLine_chain (pixels : List RGB) (width height : ℕ) :
    List.Chain' (fun p q => q.x = p.x + 1) (averagedLine pixels width height) := by
  rw [averagedLine, List.chain'_map]
  have h : ∀ a b : ℕ, b = a + 1 →
      (averagedCol pixels width height b).x = (averagedCol pixels width height a).x + 1 := by
    intro a b hab
    rw [averagedCol_x, averagedCol_x, hab]
  apply List.Chain'.imp (fun ha hb => h _ _)
  cases width with
  | zero => simp
  | succ n =>
      rw [List.chain'_range_succ]
      intro m _
      rfl

/-- The segment center is at least the segment start. -/
theorem le_centerX (s e : ℕ) (h : s ≤ e) : s ≤ centerX s e := by
  rw [centerX]
  omega

/-- The segment center is at most the segment end. -/
theorem centerX_le (s e : ℕ) (h : s ≤ e) : centerX s e ≤ e := by
  rw [centerX]
  omega

/-- A chain relation can be strengthened using a property of the list members. -/
theorem chain'_strengthen_mem {α : Type} {R S : α → α → Prop} {W : α → Prop} :
    ∀ {l : List α}, (∀ x ∈ l, W x) → List.Chain' R l →
      (∀ a b, W a → W b → R a b → S a b) → List.Chain' S l := by
  intro l
  induction l with
  | nil => intro _ _ _; trivial
  | cons a t ih =>
      cases t with
      | nil => intro _ _ _; exact List.chain'_singleton a
      | cons b t' =>
          intro hw hc himp
          rw [List.chain'_cons] at hc ⊢
          refine ⟨himp a b (hw a (by simp)) (hw b (by simp)) hc.1, ?_⟩
          exact ih (fun x hx => hw x (by simp [hx])) hc.2 himp

/-- Segment centers of a consecutive-x line are strictly increasing. -/
theorem segments_centers_pairwise (thr : ℝ) (line : List AvgPx)
    (hline : List.Chain' (fun p q => q.x = p.x + 1) line) :
    List.Pairwise
      (fun s1 s2 => centerX s1.start_x s1.end_x < centerX s2.start_x s2.end_x)
      (segmentsOf thr line) := by
  obtain ⟨hwf, hord⟩ := segmentsOf_wf_ordered thr line hline
  haveI : IsTrans Segment
      (fun s1 s2 => centerX s1.start_x s1.end_x < centerX s2.start_x s2.end_x) :=
    ⟨fun _ _ _ => lt_trans⟩
  rw [← List.chain'_iff_pairwise]
  apply chain'_strengthen_mem hwf hord
  intro s1 s2 hw1 hw2 hR
  calc centerX s1.start_x s1.end_x ≤ s1.end_x := centerX_le _ _ hw1
    _ < s2.start_x := hR
    _ ≤ centerX s2.start_x s2.end_x := le_centerX _ _ hw2

/-- Whenever `segmentToBand` admits a segment, the emitted band's x is the segment center. -/
theorem segmentToBand_x (cc : List CustomColor) (n mw i : ℕ) (s : Segment) (b : Band)
    (h : segmentToBand cc n mw i s = some b) : b.x = centerX s.start_x s.end_x := by
  simp only [segmentToBand] at h
  repeat' split at h
  all_goals
    first
      | rw [← Option.some_inj.mp h]
      | exact absurd h (by simp)

/-- The x coordinates of the admitted bands form a sublist of the segment centers. -/
theorem bands_x_sublist (cc : List CustomColor) (n mw : ℕ) (l : List Segment) :
    ∀ k : ℕ,
      (((l.enumFrom k).filterMap (fun p => segmentToBand cc n mw p.1 p.2)).map
        (fun b => b.x)).Sublist (l.map (fun s => centerX s.start_x s.end_x)) := by
  induction l with
  | nil => intro k; simp
  | cons s t ih =>
      intro k
      rw [List.enumFrom_cons, List.filterMap_cons]
      cases hsb : segmentToBand cc n mw k s with
      | none =>
          simp only [List.map_cons]
          exact (ih (k + 1)).cons _
      | some b =>
          simp only [List.map_cons]
          rw [segmentToBand_x cc n mw k s b hsb]
          exact (ih (k + 1)).cons₂ _

/-- Sorting by the non-strict key comparison preserves strict pairwise increase when the input already had pairwise distinct increasing keys. -/
theorem pairwise_lt_mergeSort (l : List Band)
    (h : l.Pairwise (fun b1 b2 => b1.x < b2.x)) :
    (l.mergeSort (fun a b => decide (a.x ≤ b.x))).Pairwise (fun b1 b2 => b1.x < b2.x) := by
  have hsorted := @List.sorted_mergeSort Band
    (fun a b : Band => decide (a.x ≤ b.x))
    (fun a b c hab hbc => by
      simp only [decide_eq_true_eq] at hab hbc ⊢
      omega)
    (fun a b => by
      simp only [Bool.or_eq_true, decide_eq_true_eq]
      omega)
    l
  have hperm := List.mergeSort_perm l (fun a b => decide (a.x ≤ b.x))
  have hne_in : l.Pairwise (fun b1 b2 => b1.x ≠ b2.x) := h.imp (fun hab => ne_of_lt hab)
  have hnodup : (l.map (fun b => b.x)).Nodup := List.pairwise_map.mpr hne_in
  have hnodup2 : ((l.mergeSort (fun a b => decide (a.x ≤ b.x))).map (fun b => b.x)).Nodup :=
    ((hperm.map (fun b => b.x)).nodup_iff).mpr hnodup
  have hne_out := List.pairwise_map.mp hnodup2
  exact (hsorted.and hne_out).imp
    (fun hab => lt_of_le_of_ne (by exact of_decide_eq_true hab.1) hab.2)

/-- C9: for every input pixel buffer, width, height, threshold and custom-color list, the list of Bands returned by extractBands is strictly increasing in the x field (band center coordinate). -/
theorem C9_band_ordering (pixels : List RGB) (width height : ℕ) (thr : ℝ)
    (customColors : List CustomColor) :
    (extractBands pixels width height thr customColors).Pairwise
      (fun b1 b2 => b1.x < b2.x) := by
  simp only [extractBands]
  split
  · exact List.Pairwise.nil
  · split
    · exact List.Pairwise.nil
    · apply pairwise_lt_mergeSort
      have hcent := segments_centers_pairwise thr (averagedLine pixels width height)
        (averagedLine_chain pixels width height)
      have hsub := bands_x_sublist customColors
        (segmentsOf thr (averagedLine pixels width height)).length
        (medianWidthOf (segmentsOf thr (averagedLine pixels width height)))
        (segmentsOf thr (averagedLine pixels width height)) 0
      have hpw : ((segmentsOf thr (averagedLine pixels width height)).map
          (fun s => centerX s.start_x s.end_x)).Pairwise (fun a b => a < b) :=
        List.pairwise_map.mpr hcent
      have hpw2 := hpw.sublist hsub
      exact List.pairwise_map.mp hpw2
